import Mathlib

/-!
Shallow embedding of the FoodSafe event indexer (src/backend/indexer.py,
src/backend/database.py, src/backend/blockchain.py).

Modelling conventions:
* Timestamps are `Nat` (unix seconds); `datetime.utcnow()` is modelled as an
  explicit `now : Nat` argument threaded to the batch (one wall-clock reading
  per batch).
* `BlockchainService.get_block_timestamp` is modelled as a function
  `block_ts : Nat → Nat` from block number to timestamp for the successful
  path, and separately as `get_block_timestamp` over an `Except` result to
  capture its fallback behaviour.
* The SQLAlchemy session (`SessionLocal = sessionmaker(autocommit=False,
  autoflush=False, ...)`, database.py line 61) is modelled by `DbSession`.
  Because `autoflush=False`, a `db.query(...)` inside a batch sees only the
  committed database state, never rows pending from `db.add(...)` earlier in
  the same batch; mutations of ORM objects that were loaded from the
  database (identity map) are visible to later queries in the same session.
  Hence: `visible_lots` are the committed lot rows with in-session mutations
  applied; `pending_lots` / `pending_history` / `pending_recalls` are rows
  added via `db.add` and invisible to queries until commit;
  `committed_history` / `committed_recalls` are the committed rows, frozen
  for the duration of the batch.
* `db.commit()` flushes the pending inserts; the database enforces the
  primary key on `lots.token_id`, the UNIQUE constraints on
  `history_entries.transaction_hash` and `recall_events.transaction_hash`
  (database.py lines 40 and 56) and the FOREIGN KEY constraints
  `history_entries.token_id → lots.token_id` and
  `recall_events.token_id → lots.token_id` (database.py lines 35 and 53).
  A violated constraint raises, which `index_all_events` turns into
  `db.rollback()` plus re-raise; this is modelled by `commit` returning
  `Except DbError Store` where the error case leaves the caller with the
  pre-batch store. The order in which the checks are listed models the
  order constraints trip during the flush; only the fact of failure is
  semantically load-bearing.
-/

namespace FoodSafe

/-- Row of the `lots` table (database.py, class Lot). -/
structure Lot where
  token_id : Nat
  owner_address : String
  status : String
  is_recalled : Bool
  created_at : Nat
  updated_at : Nat
  deriving Repr, DecidableEq

/-- Row of the `history_entries` table (database.py, class HistoryEntry).
The synthetic autoincrement `id` is omitted: it carries no information the
claims touch and is determined by insertion order. -/
structure HistoryEntry where
  token_id : Nat
  timestamp : Nat
  stakeholder_address : String
  ipfs_hash : String
  event_type : String
  transaction_hash : String
  block_number : Nat
  deriving Repr, DecidableEq

/-- Row of the `recall_events` table (database.py, class RecallEvent). -/
structure RecallEvent where
  token_id : Nat
  regulator_address : String
  timestamp : Nat
  transaction_hash : String
  block_number : Nat
  deriving Repr, DecidableEq

/-- Committed database state: the three tables. -/
structure Store where
  lots : List Lot
  history_entries : List HistoryEntry
  recall_events : List RecallEvent
  deriving Repr, DecidableEq

/-- Decoded LotRegistered event (args read in indexer.py lines 59-63). -/
structure LotRegisteredEvent where
  lotId : Nat
  productName : String
  producer : String
  transactionHash : String
  blockNumber : Nat
  deriving Repr, DecidableEq

/-- Decoded ERC-721 Transfer event (args read in indexer.py lines 105-109). -/
structure TransferEvent where
  from_address : String
  to_address : String
  tokenId : Nat
  transactionHash : String
  blockNumber : Nat
  deriving Repr, DecidableEq

/-- Decoded LotStatusUpdated event (args read in indexer.py lines 163-168). -/
structure LotStatusUpdatedEvent where
  lotId : Nat
  newStatus : Nat
  ipfsHash : String
  updater : String
  transactionHash : String
  blockNumber : Nat
  deriving Repr, DecidableEq

/-- Decoded LotRecalled event (args read in indexer.py lines 214-217). -/
structure LotRecalledEvent where
  lotId : Nat
  regulator : String
  transactionHash : String
  blockNumber : Nat
  deriving Repr, DecidableEq

/-- The event logs one polling cycle fetches, one list per event kind, in
the fixed order index_all_events processes them (indexer.py lines 270-273). -/
structure EventBatch where
  registered : List LotRegisteredEvent
  transfers : List TransferEvent
  statusUpdates : List LotStatusUpdatedEvent
  recalls : List LotRecalledEvent
  deriving Repr, DecidableEq

/-- The zero address literal compared against in indexer.py line 112. -/
def zero_address : String := "0x0000000000000000000000000000000000000000"

/-- Status enum mapping, `status_map.get(new_status, "Unknown")`
(indexer.py lines 171-172). -/
def status_map_get (new_status : Nat) : String :=
  match new_status with
  | 0 => "Created"
  | 1 => "InTransit"
  | 2 => "OnShelf"
  | 3 => "Recalled"
  | _ => "Unknown"

/-- In-flight SQLAlchemy session state during one batch; see the header
comment for the correspondence. -/
structure DbSession where
  visible_lots : List Lot
  pending_lots : List Lot
  committed_history : List HistoryEntry
  pending_history : List HistoryEntry
  committed_recalls : List RecallEvent
  pending_recalls : List RecallEvent
  deriving Repr, DecidableEq

/-- `SessionLocal()` at the start of index_all_events: a fresh session over
the committed store. -/
def openSession (s : Store) : DbSession :=
  { visible_lots := s.lots
    pending_lots := []
    committed_history := s.history_entries
    pending_history := []
    committed_recalls := s.recall_events
    pending_recalls := [] }

/-- `db.query(Lot).filter(Lot.token_id == tid).first()`: with
`autoflush=False` the SELECT sees only committed rows (with in-session
mutations via the identity map), never pending `db.add`ed lots. -/
def findLot (sess : DbSession) (tid : Nat) : Option Lot :=
  sess.visible_lots.find? (fun l => l.token_id == tid)

/-- `db.query(HistoryEntry).filter(HistoryEntry.transaction_hash == h).first()`
is not none; pending rows are invisible (autoflush=False). -/
def historyExists (sess : DbSession) (h : String) : Bool :=
  sess.committed_history.any (fun e => e.transaction_hash == h)

/-- `db.query(RecallEvent).filter(RecallEvent.transaction_hash == h).first()`
is not none; pending rows are invisible (autoflush=False). -/
def recallExists (sess : DbSession) (h : String) : Bool :=
  sess.committed_recalls.any (fun e => e.transaction_hash == h)

/-- Mutation of a lot object already loaded from the database: visible to
later queries in the same session through the identity map. -/
def updateVisibleLot (sess : DbSession) (tid : Nat) (f : Lot → Lot) : DbSession :=
  { sess with
    visible_lots := sess.visible_lots.map (fun l => if l.token_id == tid then f l else l) }

/-- `db.add(new_lot)`: stages an INSERT, invisible to queries until flush. -/
def addLot (sess : DbSession) (l : Lot) : DbSession :=
  { sess with pending_lots := sess.pending_lots ++ [l] }

/-- `db.add(history_entry)`. -/
def addHistory (sess : DbSession) (e : HistoryEntry) : DbSession :=
  { sess with pending_history := sess.pending_history ++ [e] }

/-- `db.add(recall_event)`. -/
def addRecall (sess : DbSession) (e : RecallEvent) : DbSession :=
  { sess with pending_recalls := sess.pending_recalls ++ [e] }

instance {ε : Type u} {α : Type v} [DecidableEq ε] [DecidableEq α] :
    DecidableEq (Except ε α)
  | .ok x, .ok y =>
    if h : x = y then .isTrue (congrArg Except.ok h)
    else .isFalse (fun hc => h (Except.ok.inj hc))
  | .error x, .error y =>
    if h : x = y then .isTrue (congrArg Except.error h)
    else .isFalse (fun hc => h (Except.error.inj hc))
  | .ok _, .error _ => .isFalse (fun hc => Except.noConfusion hc)
  | .error _, .ok _ => .isFalse (fun hc => Except.noConfusion hc)

/-- Constraint violations the database can raise at flush/commit time. -/
inductive DbError where
  | pkViolation
  | uniqueViolation
  | fkViolation
  deriving Repr, DecidableEq

/-- Token ids of a list of lot rows. -/
def lotIds (ls : List Lot) : List Nat := ls.map Lot.token_id

/-- Transaction hashes of a list of history rows. -/
def histHashes (es : List HistoryEntry) : List String := es.map HistoryEntry.transaction_hash

/-- Transaction hashes of a list of recall rows. -/
def recallHashes (es : List RecallEvent) : List String := es.map RecallEvent.transaction_hash

/-- `db.commit()`: flush the pending INSERTs and the UPDATEs of loaded rows.
An INSERT violating the `lots` primary key, a `transaction_hash` UNIQUE
constraint or a `token_id` FOREIGN KEY raises; otherwise the new committed
store is the visible rows (with updates) plus the pending rows appended. -/
def commit (sess : DbSession) : Except DbError Store :=
  if ¬ ((lotIds sess.pending_lots).Nodup ∧
        ∀ i ∈ lotIds sess.pending_lots, i ∉ lotIds sess.visible_lots) then
    .error .pkViolation
  else if ¬ ((histHashes sess.pending_history).Nodup ∧
        ∀ h ∈ histHashes sess.pending_history, h ∉ histHashes sess.committed_history) then
    .error .uniqueViolation
  else if ¬ ((recallHashes sess.pending_recalls).Nodup ∧
        ∀ h ∈ recallHashes sess.pending_recalls, h ∉ recallHashes sess.committed_recalls) then
    .error .uniqueViolation
  else if ¬ (∀ e ∈ sess.pending_history,
        e.token_id ∈ lotIds sess.visible_lots ∨ e.token_id ∈ lotIds sess.pending_lots) then
    .error .fkViolation
  else if ¬ (∀ e ∈ sess.pending_recalls,
        e.token_id ∈ lotIds sess.visible_lots ∨ e.token_id ∈ lotIds sess.pending_lots) then
    .error .fkViolation
  else
    .ok { lots := sess.visible_lots ++ sess.pending_lots
          history_entries := sess.committed_history ++ sess.pending_history
          recall_events := sess.committed_recalls ++ sess.pending_recalls }

/-- One iteration of the loop in EventIndexer.index_lot_registered_events
(indexer.py lines 58-91). -/
def registeredStep (block_ts : Nat → Nat) (now : Nat)
    (sess : DbSession) (event : LotRegisteredEvent) : DbSession :=
  match findLot sess event.lotId with
  | some _ => sess
  | none =>
    let sess := addLot sess
      { token_id := event.lotId
        owner_address := event.producer
        status := "Created"
        is_recalled := false
        created_at := now
        updated_at := now }
    addHistory sess
      { token_id := event.lotId
        timestamp := block_ts event.blockNumber
        stakeholder_address := event.producer
        ipfs_hash := ""
        event_type := "LotRegistered"
        transaction_hash := event.transactionHash
        block_number := event.blockNumber }

/-- EventIndexer.index_lot_registered_events (indexer.py lines 51-95),
applied to the fetched event list. -/
def index_lot_registered_events (events : List LotRegisteredEvent)
    (block_ts : Nat → Nat) (now : Nat) (sess : DbSession) : DbSession :=
  events.foldl (registeredStep block_ts now) sess

/-- One iteration of the loop in EventIndexer.index_transfer_events
(indexer.py lines 104-149). -/
def transferStep (block_ts : Nat → Nat) (now : Nat)
    (sess : DbSession) (event : TransferEvent) : DbSession :=
  if event.from_address == zero_address then sess
  else
    let sess :=
      match findLot sess event.tokenId with
      | some _ =>
        updateVisibleLot sess event.tokenId
          (fun l => { l with owner_address := event.to_address, updated_at := now })
      | none =>
        addLot sess
          { token_id := event.tokenId
            owner_address := event.to_address
            status := "InTransit"
            is_recalled := false
            created_at := now
            updated_at := now }
    if historyExists sess event.transactionHash then sess
    else
      addHistory sess
        { token_id := event.tokenId
          timestamp := block_ts event.blockNumber
          stakeholder_address := event.to_address
          ipfs_hash := ""
          event_type := "Transfer"
          transaction_hash := event.transactionHash
          block_number := event.blockNumber }

/-- EventIndexer.index_transfer_events (indexer.py lines 97-153). -/
def index_transfer_events (events : List TransferEvent)
    (block_ts : Nat → Nat) (now : Nat) (sess : DbSession) : DbSession :=
  events.foldl (transferStep block_ts now) sess

/-- One iteration of the loop in EventIndexer.index_lot_status_updated_events
(indexer.py lines 162-200). -/
def statusStep (block_ts : Nat → Nat) (now : Nat)
    (sess : DbSession) (event : LotStatusUpdatedEvent) : DbSession :=
  let status_str := status_map_get event.newStatus
  let sess :=
    match findLot sess event.lotId with
    | some _ =>
      updateVisibleLot sess event.lotId
        (fun l => { l with status := status_str, owner_address := event.updater,
                           updated_at := now })
    | none => sess
  if historyExists sess event.transactionHash then sess
  else
    addHistory sess
      { token_id := event.lotId
        timestamp := block_ts event.blockNumber
        stakeholder_address := event.updater
        ipfs_hash := event.ipfsHash
        event_type := "LotStatusUpdated"
        transaction_hash := event.transactionHash
        block_number := event.blockNumber }

/-- EventIndexer.index_lot_status_updated_events (indexer.py lines 155-204). -/
def index_lot_status_updated_events (events : List LotStatusUpdatedEvent)
    (block_ts : Nat → Nat) (now : Nat) (sess : DbSession) : DbSession :=
  events.foldl (statusStep block_ts now) sess

/-- One iteration of the loop in EventIndexer.index_lot_recalled_events
(indexer.py lines 213-257). Note that the `if not existing_recall:` check
guards both the RecallEvent insert and the LotRecalled HistoryEntry insert. -/
def recalledStep (block_ts : Nat → Nat) (now : Nat)
    (sess : DbSession) (event : LotRecalledEvent) : DbSession :=
  let sess :=
    match findLot sess event.lotId with
    | some _ =>
      updateVisibleLot sess event.lotId
        (fun l => { l with is_recalled := true, status := "Recalled", updated_at := now })
    | none => sess
  if recallExists sess event.transactionHash then sess
  else
    let sess := addRecall sess
      { token_id := event.lotId
        regulator_address := event.regulator
        timestamp := block_ts event.blockNumber
        transaction_hash := event.transactionHash
        block_number := event.blockNumber }
    addHistory sess
      { token_id := event.lotId
        timestamp := block_ts event.blockNumber
        stakeholder_address := event.regulator
        ipfs_hash := "RECALL_TRIGGERED"
        event_type := "LotRecalled"
        transaction_hash := event.transactionHash
        block_number := event.blockNumber }

/-- EventIndexer.index_lot_recalled_events (indexer.py lines 206-261). -/
def index_lot_recalled_events (events : List LotRecalledEvent)
    (block_ts : Nat → Nat) (now : Nat) (sess : DbSession) : DbSession :=
  events.foldl (recalledStep block_ts now) sess

/-- EventIndexer.index_all_events (indexer.py lines 263-284): open a fresh
session, run the four handlers in the fixed order, commit. On any raised
error the session is rolled back (the caller keeps the pre-batch store) and
the error propagates. -/
def index_all_events (s : Store) (batch : EventBatch)
    (block_ts : Nat → Nat) (now : Nat) : Except DbError Store :=
  let sess := openSession s
  let sess := index_lot_registered_events batch.registered block_ts now sess
  let sess := index_transfer_events batch.transfers block_ts now sess
  let sess := index_lot_status_updated_events batch.statusUpdates block_ts now sess
  let sess := index_lot_recalled_events batch.recalls block_ts now sess
  commit sess

/-- Maximum of a list of Nat as the SQL `MAX` aggregate: `none` on an empty
table (scalar() returns None). -/
def sqlMax (l : List Nat) : Option Nat :=
  match l with
  | [] => none
  | x :: xs => some (xs.foldl max x)

/-- EventIndexer._get_last_indexed_block (indexer.py lines 23-41). The
Python truthiness coercions `max_recall_block if max_recall_block else 0`
and `max_block if max_block else 0` are the `if m == 0` branches (both
collapse `0` to `0` and keep any other number). -/
def _get_last_indexed_block (s : Store) : Nat :=
  match sqlMax (s.history_entries.map HistoryEntry.block_number) with
  | some m => if m == 0 then 0 else m
  | none =>
    match sqlMax (s.recall_events.map RecallEvent.block_number) with
    | some m => if m == 0 then 0 else m
    | none => 0

/-- BlockchainService.get_event_logs (blockchain.py lines 135-169): the
fetch result is either the parsed logs or an exception from the node
round-trip; `except Exception: ... return []` swallows the error and
returns an empty list. -/
def get_event_logs (fetch : Except Unit (List α)) : List α :=
  match fetch with
  | .ok logs => logs
  | .error _ => []

/-- BlockchainService.get_block_timestamp (blockchain.py lines 177-186):
returns the block's timestamp, or falls back to `datetime.utcnow()` when
fetching the block raises. Nothing but the plain timestamp is returned. -/
def get_block_timestamp (fetch : Except Unit Nat) (now : Nat) : Nat :=
  match fetch with
  | .ok t => t
  | .error _ => now

/-- In-memory state of the indexer process: the committed store plus
`self.last_indexed_block` (indexer.py lines 21, 310). -/
structure EngineState where
  store : Store
  last_indexed_block : Nat
  deriving Repr, DecidableEq

/-- One iteration of EventIndexer.run (indexer.py lines 300-319): compare
the chain head with `last_indexed_block`; when ahead, fetch the four event
kinds for `[last+1, latest]` through get_event_logs and apply
index_all_events; on success advance `last_indexed_block`, on a raised
error keep both the store (rolled back) and `last_indexed_block`. -/
def runCycle (st : EngineState) (latest : Nat)
    (fetchRegistered : Except Unit (List LotRegisteredEvent))
    (fetchTransfers : Except Unit (List TransferEvent))
    (fetchStatus : Except Unit (List LotStatusUpdatedEvent))
    (fetchRecalls : Except Unit (List LotRecalledEvent))
    (block_ts : Nat → Nat) (now : Nat) : EngineState :=
  if st.last_indexed_block < latest then
    let batch : EventBatch :=
      { registered := get_event_logs fetchRegistered
        transfers := get_event_logs fetchTransfers
        statusUpdates := get_event_logs fetchStatus
        recalls := get_event_logs fetchRecalls }
    match index_all_events st.store batch block_ts now with
    | .ok s' => { store := s', last_indexed_block := latest }
    | .error _ => st
  else st

/-- The Lot-table invariant stated in spec section 3:
`recalled == true` iff `status == Recalled`, as an executable check. -/
def lot_invariant (l : Lot) : Bool :=
  l.is_recalled == decide (l.status = "Recalled")

/-- The invariant over every Lot row of a store. -/
def store_invariant (s : Store) : Bool :=
  s.lots.all lot_invariant

/-- Maximum of a list of block numbers with an empty table contributing 0. -/
def listMax0 (l : List Nat) : Nat := l.foldl max 0

/-- The watermark formula as the spec words it (section 4.5):
`currentWatermark() = max(max(HistoryEntry.block), max(RecallEvent.block), 0)`,
an empty table contributing 0. Stated from the spec to compare against
`_get_last_indexed_block`, which is translated from the source. -/
def watermark_spec (s : Store) : Nat :=
  max (listMax0 (s.history_entries.map HistoryEntry.block_number))
      (listMax0 (s.recall_events.map RecallEvent.block_number))

/-- Session t extends session s: the committed tables are untouched, the
visible lot rows keep their token ids (updates never reassign a primary
key) and the pending insert lists only grow. Every handler step is an
extension. -/
structure SessExtends (s t : DbSession) : Prop where
  ch : t.committed_history = s.committed_history
  cr : t.committed_recalls = s.committed_recalls
  vid : lotIds t.visible_lots = lotIds s.visible_lots
  pl : ∃ e, t.pending_lots = s.pending_lots ++ e
  ph : ∃ e, t.pending_history = s.pending_history ++ e
  pr : ∃ e, t.pending_recalls = s.pending_recalls ++ e

/-- Session t has the same shape as s: identical pending lists and
committed tables, and the same visible token ids; only fields of visible
lot rows may differ. Replaying an already-committed event only reshapes
visible rows. -/
structure SameShape (s t : DbSession) : Prop where
  pl : t.pending_lots = s.pending_lots
  ph : t.pending_history = s.pending_history
  pr : t.pending_recalls = s.pending_recalls
  vid : lotIds t.visible_lots = lotIds s.visible_lots
  ch : t.committed_history = s.committed_history
  cr : t.committed_recalls = s.committed_recalls

theorem status_map_get_unknown (m : Nat) : status_map_get (m + 4) = "Unknown" := rfl

theorem SessExtends.extRfl (s : DbSession) : SessExtends s s :=
  ⟨by simp, by simp, by simp, ⟨[], by simp⟩, ⟨[], by simp⟩, ⟨[], by simp⟩⟩

theorem SessExtends.extTrans {s t u : DbSession}
    (h1 : SessExtends s t) (h2 : SessExtends t u) : SessExtends s u := by
  obtain ⟨a1, ha1⟩ := h1.pl; obtain ⟨a2, ha2⟩ := h2.pl
  obtain ⟨b1, hb1⟩ := h1.ph; obtain ⟨b2, hb2⟩ := h2.ph
  obtain ⟨c1, hc1⟩ := h1.pr; obtain ⟨c2, hc2⟩ := h2.pr
  exact ⟨h2.ch.trans h1.ch, h2.cr.trans h1.cr, h2.vid.trans h1.vid,
    ⟨a1 ++ a2, by rw [ha2, ha1, List.append_assoc]⟩,
    ⟨b1 ++ b2, by rw [hb2, hb1, List.append_assoc]⟩,
    ⟨c1 ++ c2, by rw [hc2, hc1, List.append_assoc]⟩⟩

theorem SameShape.shapeRfl (s : DbSession) : SameShape s s :=
  ⟨by simp, by simp, by simp, by simp, by simp, by simp⟩

theorem SameShape.shapeTrans {s t u : DbSession}
    (h1 : SameShape s t) (h2 : SameShape t u) : SameShape s u :=
  ⟨h2.pl.trans h1.pl, h2.ph.trans h1.ph, h2.pr.trans h1.pr,
   h2.vid.trans h1.vid, h2.ch.trans h1.ch, h2.cr.trans h1.cr⟩

theorem findLot_eq_none {sess : DbSession} {a : Nat}
    (h : a ∉ lotIds sess.visible_lots) : findLot sess a = none := by
  unfold findLot
  rw [List.find?_eq_none]
  intro l hl
  simp only [beq_iff_eq]
  intro he
  exact h (he ▸ List.mem_map_of_mem Lot.token_id hl)

theorem findLot_isSome {sess : DbSession} {a : Nat}
    (h : a ∈ lotIds sess.visible_lots) : ∃ l, findLot sess a = some l := by
  unfold lotIds at h
  obtain ⟨l, hl, hla⟩ := List.mem_map.mp h
  unfold findLot
  have : (sess.visible_lots.find? (fun l => l.token_id == a)).isSome := by
    rw [List.find?_isSome]
    exact ⟨l, hl, by simp [hla]⟩
  exact Option.isSome_iff_exists.mp this

theorem historyExists_eq_false {sess : DbSession} {h : String}
    (hh : h ∉ histHashes sess.committed_history) : historyExists sess h = false := by
  unfold historyExists
  rw [List.any_eq_false]
  intro e he
  simp only [beq_iff_eq]
  intro hc
  exact hh (hc ▸ List.mem_map_of_mem HistoryEntry.transaction_hash he)

theorem recallExists_eq_false {sess : DbSession} {h : String}
    (hh : h ∉ recallHashes sess.committed_recalls) : recallExists sess h = false := by
  unfold recallExists
  rw [List.any_eq_false]
  intro e he
  simp only [beq_iff_eq]
  intro hc
  exact hh (hc ▸ List.mem_map_of_mem RecallEvent.transaction_hash he)

theorem lotIds_append (a b : List Lot) : lotIds (a ++ b) = lotIds a ++ lotIds b :=
  List.map_append Lot.token_id a b

theorem histHashes_append (a b : List HistoryEntry) :
    histHashes (a ++ b) = histHashes a ++ histHashes b :=
  List.map_append HistoryEntry.transaction_hash a b

theorem recallHashes_append (a b : List RecallEvent) :
    recallHashes (a ++ b) = recallHashes a ++ recallHashes b :=
  List.map_append RecallEvent.transaction_hash a b

theorem lotIds_updateVisibleLot (sess : DbSession) (tid : Nat) (f : Lot → Lot)
    (hf : ∀ l, (f l).token_id = l.token_id) :
    lotIds (updateVisibleLot sess tid f).visible_lots = lotIds sess.visible_lots := by
  unfold updateVisibleLot lotIds
  simp only [List.map_map]
  refine List.map_congr_left (fun l _ => ?_)
  by_cases c : l.token_id = tid <;> simp [c, hf]

theorem extends_updateVisibleLot (sess : DbSession) (tid : Nat) (f : Lot → Lot)
    (hf : ∀ l, (f l).token_id = l.token_id) :
    SessExtends sess (updateVisibleLot sess tid f) :=
  ⟨rfl, rfl, lotIds_updateVisibleLot sess tid f hf,
   ⟨[], by simp [updateVisibleLot]⟩, ⟨[], by simp [updateVisibleLot]⟩,
   ⟨[], by simp [updateVisibleLot]⟩⟩

theorem extends_addLot (sess : DbSession) (l : Lot) : SessExtends sess (addLot sess l) :=
  ⟨rfl, rfl, rfl, ⟨[l], rfl⟩, ⟨[], by simp [addLot]⟩, ⟨[], by simp [addLot]⟩⟩

theorem extends_addHistory (sess : DbSession) (e : HistoryEntry) :
    SessExtends sess (addHistory sess e) :=
  ⟨rfl, rfl, rfl, ⟨[], by simp [addHistory]⟩, ⟨[e], rfl⟩, ⟨[], by simp [addHistory]⟩⟩

theorem extends_addRecall (sess : DbSession) (e : RecallEvent) :
    SessExtends sess (addRecall sess e) :=
  ⟨rfl, rfl, rfl, ⟨[], by simp [addRecall]⟩, ⟨[], by simp [addRecall]⟩, ⟨[e], rfl⟩⟩

theorem registeredStep_extends (ts : Nat → Nat) (now : Nat)
    (sess : DbSession) (ev : LotRegisteredEvent) :
    SessExtends sess (registeredStep ts now sess ev) := by
  cases hf : findLot sess ev.lotId with
  | some l =>
    simp only [registeredStep, hf]
    exact SessExtends.extRfl sess
  | none =>
    simp only [registeredStep, hf]
    exact (extends_addLot sess _).extTrans (extends_addHistory _ _)

theorem transferStep_extends (ts : Nat → Nat) (now : Nat)
    (sess : DbSession) (ev : TransferEvent) :
    SessExtends sess (transferStep ts now sess ev) := by
  by_cases hm : (ev.from_address == zero_address) = true
  · simp only [transferStep]
    rw [if_pos hm]
    exact SessExtends.extRfl sess
  · cases hf : findLot sess ev.tokenId with
    | some l =>
      simp only [transferStep, hf]
      rw [if_neg hm]
      split
      · exact extends_updateVisibleLot sess ev.tokenId _ (fun l => rfl)
      · exact (extends_updateVisibleLot sess ev.tokenId
            (fun l => { l with owner_address := ev.to_address, updated_at := now })
            (fun l => rfl)).extTrans (extends_addHistory _ _)
    | none =>
      simp only [transferStep, hf]
      rw [if_neg hm]
      split
      · exact extends_addLot sess _
      · exact (extends_addLot sess _).extTrans (extends_addHistory _ _)

theorem statusStep_extends (ts : Nat → Nat) (now : Nat)
    (sess : DbSession) (ev : LotStatusUpdatedEvent) :
    SessExtends sess (statusStep ts now sess ev) := by
  cases hf : findLot sess ev.lotId with
  | some l =>
    simp only [statusStep, hf]
    split
    · exact extends_updateVisibleLot sess ev.lotId _ (fun l => rfl)
    · exact (extends_updateVisibleLot sess ev.lotId
          (fun l => { l with status := status_map_get ev.newStatus,
                             owner_address := ev.updater, updated_at := now })
          (fun l => rfl)).extTrans (extends_addHistory _ _)
  | none =>
    simp only [statusStep, hf]
    split
    · exact SessExtends.extRfl sess
    · exact extends_addHistory _ _

theorem recalledStep_extends (ts : Nat → Nat) (now : Nat)
    (sess : DbSession) (ev : LotRecalledEvent) :
    SessExtends sess (recalledStep ts now sess ev) := by
  cases hf : findLot sess ev.lotId with
  | some l =>
    simp only [recalledStep, hf]
    split
    · exact extends_updateVisibleLot sess ev.lotId _ (fun l => rfl)
    · exact (extends_updateVisibleLot sess ev.lotId
          (fun l => { l with is_recalled := true, status := "Recalled", updated_at := now })
          (fun l => rfl)).extTrans ((extends_addRecall _ _).extTrans (extends_addHistory _ _))
  | none =>
    simp only [recalledStep, hf]
    split
    · exact SessExtends.extRfl sess
    · exact (extends_addRecall _ _).extTrans (extends_addHistory _ _)

theorem foldl_extends {σ : Type} {step : DbSession → σ → DbSession}
    (hstep : ∀ s e, SessExtends s (step s e)) :
    ∀ (evs : List σ) (s : DbSession), SessExtends s (evs.foldl step s)
  | [], s => SessExtends.extRfl s
  | e :: evs, s => (hstep s e).extTrans (foldl_extends hstep evs (step s e))

@[simp] theorem openSession_visible (s : Store) : (openSession s).visible_lots = s.lots := rfl

@[simp] theorem openSession_pl (s : Store) : (openSession s).pending_lots = [] := rfl

@[simp] theorem openSession_ch (s : Store) :
    (openSession s).committed_history = s.history_entries := rfl

@[simp] theorem openSession_ph (s : Store) : (openSession s).pending_history = [] := rfl

@[simp] theorem openSession_cr (s : Store) :
    (openSession s).committed_recalls = s.recall_events := rfl

@[simp] theorem openSession_pr (s : Store) : (openSession s).pending_recalls = [] := rfl

@[simp] theorem addLot_visible (sess : DbSession) (l : Lot) :
    (addLot sess l).visible_lots = sess.visible_lots := rfl

@[simp] theorem addLot_pl (sess : DbSession) (l : Lot) :
    (addLot sess l).pending_lots = sess.pending_lots ++ [l] := rfl

@[simp] theorem addLot_ch (sess : DbSession) (l : Lot) :
    (addLot sess l).committed_history = sess.committed_history := rfl

@[simp] theorem addLot_ph (sess : DbSession) (l : Lot) :
    (addLot sess l).pending_history = sess.pending_history := rfl

@[simp] theorem addLot_cr (sess : DbSession) (l : Lot) :
    (addLot sess l).committed_recalls = sess.committed_recalls := rfl

@[simp] theorem addLot_pr (sess : DbSession) (l : Lot) :
    (addLot sess l).pending_recalls = sess.pending_recalls := rfl

@[simp] theorem addHistory_visible (sess : DbSession) (e : HistoryEntry) :
    (addHistory sess e).visible_lots = sess.visible_lots := rfl

@[simp] theorem addHistory_pl (sess : DbSession) (e : HistoryEntry) :
    (addHistory sess e).pending_lots = sess.pending_lots := rfl

@[simp] theorem addHistory_ch (sess : DbSession) (e : HistoryEntry) :
    (addHistory sess e).committed_history = sess.committed_history := rfl

@[simp] theorem addHistory_ph (sess : DbSession) (e : HistoryEntry) :
    (addHistory sess e).pending_history = sess.pending_history ++ [e] := rfl

@[simp] theorem addHistory_cr (sess : DbSession) (e : HistoryEntry) :
    (addHistory sess e).committed_recalls = sess.committed_recalls := rfl

@[simp] theorem addHistory_pr (sess : DbSession) (e : HistoryEntry) :
    (addHistory sess e).pending_recalls = sess.pending_recalls := rfl

@[simp] theorem addRecall_visible (sess : DbSession) (e : RecallEvent) :
    (addRecall sess e).visible_lots = sess.visible_lots := rfl

@[simp] theorem addRecall_pl (sess : DbSession) (e : RecallEvent) :
    (addRecall sess e).pending_lots = sess.pending_lots := rfl

@[simp] theorem addRecall_ch (sess : DbSession) (e : RecallEvent) :
    (addRecall sess e).committed_history = sess.committed_history := rfl

@[simp] theorem addRecall_ph (sess : DbSession) (e : RecallEvent) :
    (addRecall sess e).pending_history = sess.pending_history := rfl

@[simp] theorem addRecall_cr (sess : DbSession) (e : RecallEvent) :
    (addRecall sess e).committed_recalls = sess.committed_recalls := rfl

@[simp] theorem addRecall_pr (sess : DbSession) (e : RecallEvent) :
    (addRecall sess e).pending_recalls = sess.pending_recalls ++ [e] := rfl

@[simp] theorem updateVisibleLot_pl (sess : DbSession) (tid : Nat) (f : Lot → Lot) :
    (updateVisibleLot sess tid f).pending_lots = sess.pending_lots := rfl

@[simp] theorem updateVisibleLot_ch (sess : DbSession) (tid : Nat) (f : Lot → Lot) :
    (updateVisibleLot sess tid f).committed_history = sess.committed_history := rfl

@[simp] theorem updateVisibleLot_ph (sess : DbSession) (tid : Nat) (f : Lot → Lot) :
    (updateVisibleLot sess tid f).pending_history = sess.pending_history := rfl

@[simp] theorem updateVisibleLot_cr (sess : DbSession) (tid : Nat) (f : Lot → Lot) :
    (updateVisibleLot sess tid f).committed_recalls = sess.committed_recalls := rfl

@[simp] theorem updateVisibleLot_pr (sess : DbSession) (tid : Nat) (f : Lot → Lot) :
    (updateVisibleLot sess tid f).pending_recalls = sess.pending_recalls := rfl

@[simp] theorem historyExists_updateVisibleLot (sess : DbSession) (tid : Nat)
    (f : Lot → Lot) (h : String) :
    historyExists (updateVisibleLot sess tid f) h = historyExists sess h := rfl

@[simp] theorem historyExists_addLot (sess : DbSession) (l : Lot) (h : String) :
    historyExists (addLot sess l) h = historyExists sess h := rfl

@[simp] theorem historyExists_addHistory (sess : DbSession) (e : HistoryEntry) (h : String) :
    historyExists (addHistory sess e) h = historyExists sess h := rfl

@[simp] theorem historyExists_addRecall (sess : DbSession) (e : RecallEvent) (h : String) :
    historyExists (addRecall sess e) h = historyExists sess h := rfl

@[simp] theorem recallExists_updateVisibleLot (sess : DbSession) (tid : Nat)
    (f : Lot → Lot) (h : String) :
    recallExists (updateVisibleLot sess tid f) h = recallExists sess h := rfl

@[simp] theorem recallExists_addLot (sess : DbSession) (l : Lot) (h : String) :
    recallExists (addLot sess l) h = recallExists sess h := rfl

@[simp] theorem recallExists_addHistory (sess : DbSession) (e : HistoryEntry) (h : String) :
    recallExists (addHistory sess e) h = recallExists sess h := rfl

@[simp] theorem recallExists_addRecall (sess : DbSession) (e : RecallEvent) (h : String) :
    recallExists (addRecall sess e) h = recallExists sess h := rfl

@[simp] theorem lotIds_update_owner (sess : DbSession) (tid : Nat) (a : String) (n : Nat) :
    lotIds (updateVisibleLot sess tid
      (fun l => { l with owner_address := a, updated_at := n })).visible_lots
      = lotIds sess.visible_lots :=
  lotIds_updateVisibleLot sess tid _ (fun _ => rfl)

@[simp] theorem lotIds_update_status (sess : DbSession) (tid : Nat) (st a : String) (n : Nat) :
    lotIds (updateVisibleLot sess tid
      (fun l => { l with status := st, owner_address := a, updated_at := n })).visible_lots
      = lotIds sess.visible_lots :=
  lotIds_updateVisibleLot sess tid _ (fun _ => rfl)

@[simp] theorem lotIds_update_recalled (sess : DbSession) (tid : Nat) (n : Nat) :
    lotIds (updateVisibleLot sess tid
      (fun l => { l with is_recalled := true, status := "Recalled", updated_at := n })).visible_lots
      = lotIds sess.visible_lots :=
  lotIds_updateVisibleLot sess tid _ (fun _ => rfl)

theorem mem_combined_of_extends {s t : DbSession} (h : SessExtends s t) {a : Nat}
    (ha : a ∈ lotIds s.visible_lots ∨ a ∈ lotIds s.pending_lots) :
    a ∈ lotIds t.visible_lots ∨ a ∈ lotIds t.pending_lots := by
  rcases ha with h1 | h1
  · exact Or.inl (h.vid ▸ h1)
  · obtain ⟨e, he⟩ := h.pl
    right
    rw [he, lotIds_append]
    exact List.mem_append_left _ h1

theorem mem_hist_of_extends {s t : DbSession} (h : SessExtends s t) {x : String}
    (hx : x ∈ histHashes s.committed_history ∨ x ∈ histHashes s.pending_history) :
    x ∈ histHashes t.committed_history ∨ x ∈ histHashes t.pending_history := by
  rcases hx with h1 | h1
  · exact Or.inl (h.ch ▸ h1)
  · obtain ⟨e, he⟩ := h.ph
    right
    rw [he, histHashes_append]
    exact List.mem_append_left _ h1

theorem mem_recall_of_extends {s t : DbSession} (h : SessExtends s t) {x : String}
    (hx : x ∈ recallHashes s.committed_recalls ∨ x ∈ recallHashes s.pending_recalls) :
    x ∈ recallHashes t.committed_recalls ∨ x ∈ recallHashes t.pending_recalls := by
  rcases hx with h1 | h1
  · exact Or.inl (h.cr ▸ h1)
  · obtain ⟨e, he⟩ := h.pr
    right
    rw [he, recallHashes_append]
    exact List.mem_append_left _ h1

theorem findLot_some_mem {sess : DbSession} {a : Nat} {l : Lot}
    (hf : findLot sess a = some l) : a ∈ lotIds sess.visible_lots := by
  unfold findLot at hf
  have hm : l ∈ sess.visible_lots := List.mem_of_find?_eq_some hf
  have hp := List.find?_some hf
  have he : l.token_id = a := by simpa using hp
  unfold lotIds
  rw [← he]
  exact List.mem_map_of_mem Lot.token_id hm

theorem historyExists_true_mem {sess : DbSession} {h : String}
    (hh : historyExists sess h = true) : h ∈ histHashes sess.committed_history := by
  unfold historyExists at hh
  obtain ⟨e, he, hp⟩ := List.any_eq_true.mp hh
  have : e.transaction_hash = h := by simpa using hp
  exact this ▸ List.mem_map_of_mem HistoryEntry.transaction_hash he

theorem recallExists_true_mem {sess : DbSession} {h : String}
    (hh : recallExists sess h = true) : h ∈ recallHashes sess.committed_recalls := by
  unfold recallExists at hh
  obtain ⟨e, he, hp⟩ := List.any_eq_true.mp hh
  have : e.transaction_hash = h := by simpa using hp
  exact this ▸ List.mem_map_of_mem RecallEvent.transaction_hash he

theorem registeredStep_presence (ts : Nat → Nat) (now : Nat)
    (sess : DbSession) (ev : LotRegisteredEvent) :
    ev.lotId ∈ lotIds (registeredStep ts now sess ev).visible_lots ∨
    ev.lotId ∈ lotIds (registeredStep ts now sess ev).pending_lots := by
  cases hf : findLot sess ev.lotId with
  | some l =>
    simp only [registeredStep, hf]
    exact Or.inl (findLot_some_mem hf)
  | none =>
    simp only [registeredStep, hf]
    right
    simp [lotIds]

theorem transferStep_presence (ts : Nat → Nat) (now : Nat)
    (sess : DbSession) (ev : TransferEvent) (hm : ev.from_address ≠ zero_address) :
    (ev.tokenId ∈ lotIds (transferStep ts now sess ev).visible_lots ∨
     ev.tokenId ∈ lotIds (transferStep ts now sess ev).pending_lots) ∧
    (ev.transactionHash ∈ histHashes (transferStep ts now sess ev).committed_history ∨
     ev.transactionHash ∈ histHashes (transferStep ts now sess ev).pending_history) := by
  have hm' : ¬ (ev.from_address == zero_address) = true := by simpa using hm
  cases hf : findLot sess ev.tokenId with
  | some l =>
    simp only [transferStep, hf]
    rw [if_neg hm']
    by_cases hh : historyExists sess ev.transactionHash = true
    · rw [if_pos (by simpa using hh)]
      exact ⟨Or.inl (by simpa using findLot_some_mem hf),
             Or.inl (by simpa using historyExists_true_mem hh)⟩
    · rw [if_neg (by simpa using hh)]
      refine ⟨Or.inl (by simpa using findLot_some_mem hf), Or.inr ?_⟩
      simp [histHashes]
  | none =>
    simp only [transferStep, hf]
    rw [if_neg hm']
    by_cases hh : historyExists sess ev.transactionHash = true
    · rw [if_pos (by simpa using hh)]
      exact ⟨Or.inr (by simp [lotIds]),
             Or.inl (by simpa using historyExists_true_mem hh)⟩
    · rw [if_neg (by simpa using hh)]
      refine ⟨Or.inr (by simp [lotIds]), Or.inr ?_⟩
      simp [histHashes]

theorem statusStep_presence (ts : Nat → Nat) (now : Nat)
    (sess : DbSession) (ev : LotStatusUpdatedEvent) :
    ev.transactionHash ∈ histHashes (statusStep ts now sess ev).committed_history ∨
    ev.transactionHash ∈ histHashes (statusStep ts now sess ev).pending_history := by
  cases hf : findLot sess ev.lotId with
  | some l =>
    simp only [statusStep, hf]
    by_cases hh : historyExists sess ev.transactionHash = true
    · rw [if_pos (by simpa using hh)]
      exact Or.inl (by simpa using historyExists_true_mem hh)
    · rw [if_neg (by simpa using hh)]
      right
      simp [histHashes]
  | none =>
    simp only [statusStep, hf]
    by_cases hh : historyExists sess ev.transactionHash = true
    · rw [if_pos hh]
      exact Or.inl (historyExists_true_mem hh)
    · rw [if_neg hh]
      right
      simp [histHashes]

theorem recalledStep_presence (ts : Nat → Nat) (now : Nat)
    (sess : DbSession) (ev : LotRecalledEvent) :
    ev.transactionHash ∈ recallHashes (recalledStep ts now sess ev).committed_recalls ∨
    ev.transactionHash ∈ recallHashes (recalledStep ts now sess ev).pending_recalls := by
  cases hf : findLot sess ev.lotId with
  | some l =>
    simp only [recalledStep, hf]
    by_cases hh : recallExists sess ev.transactionHash = true
    · rw [if_pos (by simpa using hh)]
      exact Or.inl (by simpa using recallExists_true_mem hh)
    · rw [if_neg (by simpa using hh)]
      right
      simp [recallHashes]
  | none =>
    simp only [recalledStep, hf]
    by_cases hh : recallExists sess ev.transactionHash = true
    · rw [if_pos hh]
      exact Or.inl (recallExists_true_mem hh)
    · rw [if_neg hh]
      right
      simp [recallHashes]

theorem foldl_presence {σ : Type} {step : DbSession → σ → DbSession}
    (Q : σ → DbSession → Prop)
    (hext : ∀ s e, SessExtends s (step s e))
    (hpres : ∀ s e, Q e (step s e))
    (hmono : ∀ (e : σ) (s t : DbSession), SessExtends s t → Q e s → Q e t) :
    ∀ (evs : List σ) (s : DbSession), ∀ e ∈ evs, Q e (evs.foldl step s) := by
  intro evs
  induction evs with
  | nil => intro s e he; exact absurd he (List.not_mem_nil e)
  | cons a l ih =>
    intro s e he
    rw [List.foldl_cons]
    rcases List.mem_cons.mp he with rfl | hl
    · exact hmono e _ _ (foldl_extends hext l (step s e)) (hpres s e)
    · exact ih (step s a) e hl

theorem commit_ok_eq {sess : DbSession} {s' : Store} (h : commit sess = .ok s') :
    s' = ⟨sess.visible_lots ++ sess.pending_lots,
          sess.committed_history ++ sess.pending_history,
          sess.committed_recalls ++ sess.pending_recalls⟩ := by
  unfold commit at h
  split_ifs at h
  exact (Except.ok.inj h).symm

theorem commit_pending_nil {sess : DbSession}
    (h1 : sess.pending_lots = []) (h2 : sess.pending_history = [])
    (h3 : sess.pending_recalls = []) :
    commit sess = .ok ⟨sess.visible_lots, sess.committed_history, sess.committed_recalls⟩ := by
  unfold commit
  rw [h1, h2, h3]
  simp [lotIds, histHashes, recallHashes]

theorem transferStep_eq (ts : Nat → Nat) (now : Nat) (sess : DbSession) (ev : TransferEvent)
    (hm : ev.from_address ≠ zero_address)
    (hl : ev.tokenId ∈ lotIds sess.visible_lots)
    (hh : ev.transactionHash ∉ histHashes sess.committed_history) :
    transferStep ts now sess ev
      = addHistory (updateVisibleLot sess ev.tokenId
          (fun l => { l with owner_address := ev.to_address, updated_at := now }))
        ⟨ev.tokenId, ts ev.blockNumber, ev.to_address, "", "Transfer",
         ev.transactionHash, ev.blockNumber⟩ := by
  have hm' : ¬ (ev.from_address == zero_address) = true := by simpa using hm
  obtain ⟨l, hf⟩ := findLot_isSome hl
  have hh' : historyExists sess ev.transactionHash = false := historyExists_eq_false hh
  simp only [transferStep, hf]
  rw [if_neg hm']
  rw [historyExists_updateVisibleLot, hh']
  simp

theorem statusStep_notfound (ts : Nat → Nat) (now : Nat) (sess : DbSession)
    (ev : LotStatusUpdatedEvent)
    (hl : ev.lotId ∉ lotIds sess.visible_lots)
    (hh : ev.transactionHash ∉ histHashes sess.committed_history) :
    statusStep ts now sess ev = addHistory sess
      ⟨ev.lotId, ts ev.blockNumber, ev.updater, ev.ipfsHash, "LotStatusUpdated",
       ev.transactionHash, ev.blockNumber⟩ := by
  have hf := findLot_eq_none hl
  have hh' := historyExists_eq_false hh
  simp only [statusStep, hf, hh']
  simp

theorem recalledStep_notfound (ts : Nat → Nat) (now : Nat) (sess : DbSession)
    (ev : LotRecalledEvent)
    (hl : ev.lotId ∉ lotIds sess.visible_lots)
    (hh : ev.transactionHash ∉ recallHashes sess.committed_recalls) :
    recalledStep ts now sess ev
      = addHistory (addRecall sess
          ⟨ev.lotId, ev.regulator, ts ev.blockNumber, ev.transactionHash, ev.blockNumber⟩)
        ⟨ev.lotId, ts ev.blockNumber, ev.regulator, "RECALL_TRIGGERED", "LotRecalled",
         ev.transactionHash, ev.blockNumber⟩ := by
  have hf := findLot_eq_none hl
  have hh' := recallExists_eq_false hh
  simp only [recalledStep, hf, hh']
  simp

theorem index_all_events_nil (s : Store) (ts : Nat → Nat) (now : Nat) :
    index_all_events s ⟨[], [], [], []⟩ ts now = .ok s := by
  simp only [index_all_events, index_lot_registered_events, index_transfer_events,
    index_lot_status_updated_events, index_lot_recalled_events, List.foldl_nil,
    commit, openSession, lotIds, histHashes, recallHashes]
  simp

theorem nat_if_beq_zero (m : Nat) : (if m == 0 then 0 else m) = m := by
  by_cases h : m = 0 <;> simp [h]

/-- Claim C5, corrected. The code returns the maximum history block while
the spec formula also folds in the recall blocks: on a store whose recall
table holds a higher block than the history table the two differ
(history max 30, recall max 50: the code yields 30, the formula 50). -/
theorem C5_counterexample :
    let s : Store := ⟨[], [⟨1, 0, "0xA", "", "Transfer", "0xh1", 30⟩],
                      [⟨1, "0xR", 0, "0xh2", 50⟩]⟩
    _get_last_indexed_block s = 30 ∧ watermark_spec s = 50 ∧
    _get_last_indexed_block s ≠ watermark_spec s := by
  decide

/-- Claim C5, amended: the watermark computed at startup is the maximum
HistoryEntry block number whenever the history table is nonempty; the
recall table is consulted only when the history table is empty; both empty
yields 0. -/
theorem C5_amended (s : Store) :
    _get_last_indexed_block s =
      if s.history_entries = [] then
        listMax0 (s.recall_events.map RecallEvent.block_number)
      else
        listMax0 (s.history_entries.map HistoryEntry.block_number) := by
  unfold _get_last_indexed_block sqlMax listMax0
  cases hh : s.history_entries with
  | cons x xs =>
    simp only [List.map_cons, hh, List.foldl_cons, Nat.zero_max, nat_if_beq_zero]
    simp [hh]
  | nil =>
    cases hr : s.recall_events with
    | nil => simp
    | cons y ys =>
      simp only [List.map_cons, List.foldl_cons, Nat.zero_max, nat_if_beq_zero]
      simp

/-- Claim C8, counterexample. Processing a LotStatusUpdated event whose
numeric code is 7 raises nothing: the batch commits and the Lot row is
stored with the silent default status "Unknown". -/
theorem C8_counterexample :
    status_map_get 7 = "Unknown" ∧
    index_all_events ⟨[⟨1, "0xA", "Created", false, 0, 0⟩], [], []⟩
        ⟨[], [], [⟨1, 7, "Qm", "0xU", "0xh7", 12⟩], []⟩ (fun b => 10 * b) 4
      = .ok ⟨[⟨1, "0xU", "Unknown", false, 0, 4⟩],
             [⟨1, 120, "0xU", "Qm", "LotStatusUpdated", "0xh7", 12⟩], []⟩ := by
  decide

/-- Claim C8, amended: the status mapping is the dictionary lookup
`status_map.get(new_status, "Unknown")`: every code outside 0..3 maps to
the default string "Unknown", and a LotStatusUpdated event carrying such a
code is processed without error, storing "Unknown" on the Lot row. -/
theorem C8_amended (n : Nat) (ts : Nat → Nat) (now : Nat) (h : 3 < n) :
    status_map_get n = "Unknown" ∧
    index_all_events ⟨[⟨1, "0xA", "Created", false, 0, 0⟩], [], []⟩
        ⟨[], [], [⟨1, n, "Qm", "0xU", "0xh8", 12⟩], []⟩ ts now
      = .ok ⟨[⟨1, "0xU", "Unknown", false, 0, now⟩],
             [⟨1, ts 12, "0xU", "Qm", "LotStatusUpdated", "0xh8", 12⟩], []⟩ := by
  obtain ⟨m, rfl⟩ : ∃ m, n = m + 4 := ⟨n - 4, by omega⟩
  exact ⟨rfl, rfl⟩

theorem C8_witness :
    (3 : Nat) < 9 ∧
    (status_map_get 9 = "Unknown" ∧
     index_all_events ⟨[⟨1, "0xA", "Created", false, 0, 0⟩], [], []⟩
        ⟨[], [], [⟨1, 9, "Qm", "0xU", "0xh8", 12⟩], []⟩ (fun b => 10 * b) 4
      = .ok ⟨[⟨1, "0xU", "Unknown", false, 0, 4⟩],
             [⟨1, 120, "0xU", "Qm", "LotStatusUpdated", "0xh8", 12⟩], []⟩) :=
  ⟨by decide, C8_amended 9 (fun b => 10 * b) 4 (by decide)⟩

/-- Claim C9, counterexample. A batch whose block-timestamp fetch failed
(wall-clock 777 substituted) produces a store identical to a batch whose
chain-derived timestamp is 777: no boolean or sentinel distinguishes the
degraded HistoryEntry from the chain-derived one. -/
theorem C9_counterexample :
    index_all_events ⟨[⟨1, "0xA", "Created", false, 0, 0⟩], [], []⟩
        ⟨[], [⟨"0xA", "0xB", 1, "0xt1", 10⟩], [], []⟩
        (fun _ => get_block_timestamp (Except.error ()) 777) 5
      = index_all_events ⟨[⟨1, "0xA", "Created", false, 0, 0⟩], [], []⟩
        ⟨[], [⟨"0xA", "0xB", 1, "0xt1", 10⟩], [], []⟩
        (fun _ => get_block_timestamp (Except.ok 777) 5) 5 := by
  rfl

/-- Claim C9, amended: when fetching a block timestamp fails the code
falls back to plain wall-clock time, and the rest of the pipeline depends
only on that numeric value: batches whose timestamp sources agree in value
are indistinguishable, so no degraded-source trace is ever stored. -/
theorem C9_amended :
    (∀ now : Nat, get_block_timestamp (Except.error ()) now = now) ∧
    ∀ (r1 r2 : Except Unit Nat) (n1 n2 : Nat) (s : Store) (b : EventBatch) (now : Nat),
      get_block_timestamp r1 n1 = get_block_timestamp r2 n2 →
      index_all_events s b (fun _ => get_block_timestamp r1 n1) now
        = index_all_events s b (fun _ => get_block_timestamp r2 n2) now := by
  refine ⟨fun _ => rfl, fun r1 r2 n1 n2 s b now h => ?_⟩
  rw [h]

theorem C9_witness :
    get_block_timestamp (Except.error ()) 500 = 500 ∧
    index_all_events ⟨[], [], []⟩ ⟨[], [], [], []⟩
        (fun _ => get_block_timestamp (Except.error ()) 500) 3
      = index_all_events ⟨[], [], []⟩ ⟨[], [], [], []⟩
        (fun _ => get_block_timestamp (Except.ok 500) 9) 3 :=
  ⟨C9_amended.1 500, C9_amended.2 (Except.error ()) (Except.ok 500) 500 9 _ _ 3 rfl⟩

/-- Claim C6, counterexample. Indexing the three spec-scenario events from
an empty store in one range (which is what the engine does at first start:
watermark 0, one range up to the head) yields Lot(5) with owner 0xAAA and
status Created, not owner 0xBBB / InTransit: with autoflush disabled the
LotStatusUpdated handler's lot query cannot see the Lot row the
LotRegistered handler added earlier in the same uncommitted batch, so the
status/owner update is silently skipped. -/
theorem C6_counterexample :
    let r := (index_all_events ⟨[], [], []⟩
        ⟨[⟨5, "Lettuce", "0xAAA", "0xh1", 100⟩],
         [⟨zero_address, "0xAAA", 5, "0xh2", 100⟩],
         [⟨5, 1, "Qm1", "0xBBB", "0xh3", 105⟩], []⟩ (fun b => 10 * b) 7).map
        (fun s => s.lots.map (fun l => (l.token_id, l.owner_address, l.status, l.is_recalled)))
    r = .ok [(5, "0xAAA", "Created", false)] ∧
    r ≠ .ok [(5, "0xBBB", "InTransit", false)] := by
  decide

/-- Claim C6, amended: applied as one block range, the scenario yields
exactly one Lot row (5, owner=0xAAA, status=Created, not recalled) and
exactly the two HistoryEntry rows tagged LotRegistered and
LotStatusUpdated (the mint Transfer contributes none); the spec's
owner=0xBBB / status=InTransit obtains only when the registration commits
in an earlier cycle than the status update. -/
theorem C6_amended :
    index_all_events ⟨[], [], []⟩
        ⟨[⟨5, "Lettuce", "0xAAA", "0xh1", 100⟩],
         [⟨zero_address, "0xAAA", 5, "0xh2", 100⟩],
         [⟨5, 1, "Qm1", "0xBBB", "0xh3", 105⟩], []⟩ (fun b => 10 * b) 7
      = .ok ⟨[⟨5, "0xAAA", "Created", false, 7, 7⟩],
             [⟨5, 1000, "0xAAA", "", "LotRegistered", "0xh1", 100⟩,
              ⟨5, 1050, "0xBBB", "Qm1", "LotStatusUpdated", "0xh3", 105⟩], []⟩ ∧
    index_all_events ⟨[], [], []⟩
        ⟨[⟨5, "Lettuce", "0xAAA", "0xh1", 100⟩],
         [⟨zero_address, "0xAAA", 5, "0xh2", 100⟩], [], []⟩ (fun b => 10 * b) 7
      = .ok ⟨[⟨5, "0xAAA", "Created", false, 7, 7⟩],
             [⟨5, 1000, "0xAAA", "", "LotRegistered", "0xh1", 100⟩], []⟩ ∧
    index_all_events ⟨[⟨5, "0xAAA", "Created", false, 7, 7⟩],
             [⟨5, 1000, "0xAAA", "", "LotRegistered", "0xh1", 100⟩], []⟩
        ⟨[], [], [⟨5, 1, "Qm1", "0xBBB", "0xh3", 105⟩], []⟩ (fun b => 10 * b) 8
      = .ok ⟨[⟨5, "0xBBB", "InTransit", false, 7, 8⟩],
             [⟨5, 1000, "0xAAA", "", "LotRegistered", "0xh1", 100⟩,
              ⟨5, 1050, "0xBBB", "Qm1", "LotStatusUpdated", "0xh3", 105⟩], []⟩ := by
  refine ⟨by decide, by decide, by decide⟩

/-- Claim C1, counterexample. On a lot satisfying the invariant, applying
LotStatusUpdated with numeric status 3 sets status to "Recalled" without
touching is_recalled (indexer.py lines 176-179 only assign status, owner
and updated_at), so the invariant is false afterwards. -/
theorem C1_counterexample :
    store_invariant ⟨[⟨1, "0xA", "Created", false, 0, 0⟩], [], []⟩ = true ∧
    (index_all_events ⟨[⟨1, "0xA", "Created", false, 0, 0⟩], [], []⟩
        ⟨[], [], [⟨1, 3, "Qm", "0xU", "0xh13", 12⟩], []⟩ (fun b => 10 * b) 7).map
        store_invariant
      = .ok true ↔ False := by
  decide

/-- Claim C7, counterexample. Two Transfer events sharing one transaction
hash inside a single batch both pass the dedup pre-check (with autoflush
disabled, the query for the hash cannot see the first, still pending
insert), both rows are staged, and the UNIQUE constraint on
transaction_hash aborts the whole batch at commit: the batch does not
commit, contradicting the claimed no-op success. -/
theorem C7_counterexample :
    index_all_events ⟨[⟨1, "0xA", "Created", false, 0, 0⟩], [], []⟩
        ⟨[], [⟨"0xA", "0xB", 1, "0xdup", 10⟩, ⟨"0xA", "0xC", 1, "0xdup", 10⟩], [], []⟩
        (fun b => 10 * b) 7
      = .error DbError.uniqueViolation := by
  decide

/-- Claim C10, counterexample. A LotStatusUpdated (or LotRecalled) event
whose token id has no Lot row does stage a HistoryEntry referencing the
nonexistent lot, but at commit the FOREIGN KEY constraint on
history_entries.token_id (and recall_events.token_id) rejects it: the
batch errors out instead of committing the orphan row. -/
theorem C10_counterexample :
    index_all_events ⟨[], [], []⟩ ⟨[], [], [⟨9, 2, "Qm", "0xU", "0xh9", 12⟩], []⟩
        (fun b => 10 * b) 7
      = .error DbError.fkViolation ∧
    index_all_events ⟨[], [], []⟩ ⟨[], [], [], [⟨9, "0xR", "0xh10", 13⟩]⟩
        (fun b => 10 * b) 7
      = .error DbError.fkViolation := by
  decide

/-- Claim C3 (code bug). When every log fetch of a polling cycle fails
with a connectivity error, get_event_logs swallows the exception and
returns an empty list (blockchain.py lines 167-169), so the cycle commits
an empty batch and advances last_indexed_block to the chain head: the
watermark moves past the never-fetched range and its events are lost,
contradicting the retry-without-advancing policy. -/
theorem C3_thm (st : EngineState) (latest : Nat) (ts : Nat → Nat) (now : Nat)
    (h : st.last_indexed_block < latest) :
    runCycle st latest (Except.error ()) (Except.error ()) (Except.error ())
        (Except.error ()) ts now
      = ⟨st.store, latest⟩ := by
  unfold runCycle
  simp [h, get_event_logs, index_all_events_nil]

theorem C3_witness :
    (0 : Nat) < 10 ∧
    runCycle ⟨⟨[⟨1, "0xA", "Created", false, 0, 0⟩], [], []⟩, 0⟩ 10
        (Except.error ()) (Except.error ()) (Except.error ()) (Except.error ())
        (fun b => b) 7
      = ⟨⟨[⟨1, "0xA", "Created", false, 0, 0⟩], [], []⟩, 10⟩ :=
  ⟨by decide, C3_thm ⟨⟨[⟨1, "0xA", "Created", false, 0, 0⟩], [], []⟩, 0⟩ 10
      (fun b => b) 7 (by decide)⟩

/-- Claim C4, confirmed. If applying a range's events raises, the session
is rolled back and the exception propagates: the cycle leaves both the
store and last_indexed_block exactly as they were, so the next cycle
recomputes the same fromBlock = last_indexed_block + 1 and the engine
never advances past a failed range. -/
theorem C4_thm (st : EngineState) (latest : Nat)
    (f1 : Except Unit (List LotRegisteredEvent)) (f2 : Except Unit (List TransferEvent))
    (f3 : Except Unit (List LotStatusUpdatedEvent)) (f4 : Except Unit (List LotRecalledEvent))
    (ts : Nat → Nat) (now : Nat) (e : DbError)
    (hlt : st.last_indexed_block < latest)
    (herr : index_all_events st.store
        ⟨get_event_logs f1, get_event_logs f2, get_event_logs f3, get_event_logs f4⟩ ts now
      = .error e) :
    runCycle st latest f1 f2 f3 f4 ts now = st := by
  unfold runCycle
  simp [hlt, herr]

theorem C4_witness :
    (0 : Nat) < 10 ∧
    index_all_events ⟨[⟨1, "0xA", "Created", false, 0, 0⟩], [], []⟩
        ⟨get_event_logs (Except.ok []),
         get_event_logs (Except.ok [⟨"0xA", "0xB", 1, "0xd2", 9⟩, ⟨"0xA", "0xC", 1, "0xd2", 9⟩]),
         get_event_logs (Except.ok []), get_event_logs (Except.ok [])⟩ (fun b => b) 7
      = .error DbError.uniqueViolation ∧
    runCycle ⟨⟨[⟨1, "0xA", "Created", false, 0, 0⟩], [], []⟩, 0⟩ 10
        (Except.ok []) (Except.ok [⟨"0xA", "0xB", 1, "0xd2", 9⟩, ⟨"0xA", "0xC", 1, "0xd2", 9⟩])
        (Except.ok []) (Except.ok []) (fun b => b) 7
      = ⟨⟨[⟨1, "0xA", "Created", false, 0, 0⟩], [], []⟩, 0⟩ :=
  ⟨by decide, by decide,
   C4_thm ⟨⟨[⟨1, "0xA", "Created", false, 0, 0⟩], [], []⟩, 0⟩ 10
      (Except.ok []) (Except.ok [⟨"0xA", "0xB", 1, "0xd2", 9⟩, ⟨"0xA", "0xC", 1, "0xd2", 9⟩])
      (Except.ok []) (Except.ok []) (fun b => b) 7 DbError.uniqueViolation
      (by decide) (by decide)⟩

end FoodSafe

namespace FoodSafe

/-- Claim C7, amended: two events carrying the same transaction hash inside
one batch both pass the dedup pre-check (the hash query sees only
committed rows), both inserts are staged, and the UNIQUE constraint on
transaction_hash makes the commit raise: the whole batch is rolled back
and retried rather than treated as a no-op success. -/
theorem C7_amended (s : Store) (t1 t2 : TransferEvent) (ts : Nat → Nat) (now : Nat)
    (hsame : t1.transactionHash = t2.transactionHash)
    (hm1 : t1.from_address ≠ zero_address) (hm2 : t2.from_address ≠ zero_address)
    (hl1 : t1.tokenId ∈ lotIds s.lots) (hl2 : t2.tokenId ∈ lotIds s.lots)
    (hfresh : t1.transactionHash ∉ histHashes s.history_entries) :
    index_all_events s ⟨[], [t1, t2], [], []⟩ ts now = .error DbError.uniqueViolation := by
  unfold index_all_events index_lot_registered_events index_transfer_events
    index_lot_status_updated_events index_lot_recalled_events
  simp only [List.foldl_nil, List.foldl_cons]
  rw [transferStep_eq ts now (openSession s) t1 hm1 hl1 hfresh]
  rw [transferStep_eq ts now _ t2 hm2 (by simpa using hl2) (by simpa using hsame ▸ hfresh)]
  unfold commit
  simp [lotIds, histHashes, recallHashes, hsame]

theorem C7_witness :
    ("0xA" : String) ≠ zero_address ∧
    (1 : Nat) ∈ lotIds [⟨1, "0xA", "Created", false, 0, 0⟩] ∧
    ("0xduph" : String) ∉ histHashes [] ∧
    index_all_events ⟨[⟨1, "0xA", "Created", false, 0, 0⟩], [], []⟩
        ⟨[], [⟨"0xA", "0xB", 1, "0xduph", 11⟩, ⟨"0xA", "0xC", 1, "0xduph", 11⟩], [], []⟩
        (fun b => b) 6
      = .error DbError.uniqueViolation :=
  ⟨by decide, by decide, by decide,
   C7_amended ⟨[⟨1, "0xA", "Created", false, 0, 0⟩], [], []⟩
      ⟨"0xA", "0xB", 1, "0xduph", 11⟩ ⟨"0xA", "0xC", 1, "0xduph", 11⟩ (fun b => b) 6
      rfl (by decide) (by decide) (by decide) (by decide) (by decide)⟩

/-- Claim C10, amended: on a token id with no Lot row, the LotStatusUpdated
and LotRecalled handlers create no lot and raise nothing, staging the
HistoryEntry (and RecallEvent) inserts that reference the nonexistent lot;
but committing the batch hits the FOREIGN KEY constraint on token_id, so
the batch errors out and nothing is persisted. -/
theorem C10_amended (s : Store) (st : LotStatusUpdatedEvent) (rc : LotRecalledEvent)
    (ts : Nat → Nat) (now : Nat)
    (hst : st.lotId ∉ lotIds s.lots) (hrc : rc.lotId ∉ lotIds s.lots)
    (hsh : st.transactionHash ∉ histHashes s.history_entries)
    (hrh : rc.transactionHash ∉ recallHashes s.recall_events)
    (hrh2 : rc.transactionHash ∉ histHashes s.history_entries)
    (hne : st.transactionHash ≠ rc.transactionHash) :
    (index_lot_recalled_events [rc] ts now
        (index_lot_status_updated_events [st] ts now (openSession s))).visible_lots
      = s.lots ∧
    (index_lot_recalled_events [rc] ts now
        (index_lot_status_updated_events [st] ts now (openSession s))).pending_lots
      = [] ∧
    (index_lot_recalled_events [rc] ts now
        (index_lot_status_updated_events [st] ts now (openSession s))).pending_history
      = [⟨st.lotId, ts st.blockNumber, st.updater, st.ipfsHash, "LotStatusUpdated",
          st.transactionHash, st.blockNumber⟩,
         ⟨rc.lotId, ts rc.blockNumber, rc.regulator, "RECALL_TRIGGERED", "LotRecalled",
          rc.transactionHash, rc.blockNumber⟩] ∧
    (index_lot_recalled_events [rc] ts now
        (index_lot_status_updated_events [st] ts now (openSession s))).pending_recalls
      = [⟨rc.lotId, rc.regulator, ts rc.blockNumber, rc.transactionHash, rc.blockNumber⟩] ∧
    index_all_events s ⟨[], [], [st], [rc]⟩ ts now = .error DbError.fkViolation := by
  have e1 : index_lot_status_updated_events [st] ts now (openSession s)
      = addHistory (openSession s)
        ⟨st.lotId, ts st.blockNumber, st.updater, st.ipfsHash, "LotStatusUpdated",
         st.transactionHash, st.blockNumber⟩ := by
    unfold index_lot_status_updated_events
    simp only [List.foldl_cons, List.foldl_nil]
    exact statusStep_notfound ts now (openSession s) st (by simpa using hst) (by simpa using hsh)
  have e2 : index_lot_recalled_events [rc] ts now
        (index_lot_status_updated_events [st] ts now (openSession s))
      = addHistory (addRecall (addHistory (openSession s)
          ⟨st.lotId, ts st.blockNumber, st.updater, st.ipfsHash, "LotStatusUpdated",
           st.transactionHash, st.blockNumber⟩)
          ⟨rc.lotId, rc.regulator, ts rc.blockNumber, rc.transactionHash, rc.blockNumber⟩)
        ⟨rc.lotId, ts rc.blockNumber, rc.regulator, "RECALL_TRIGGERED", "LotRecalled",
         rc.transactionHash, rc.blockNumber⟩ := by
    rw [e1]
    unfold index_lot_recalled_events
    simp only [List.foldl_cons, List.foldl_nil]
    exact recalledStep_notfound ts now _ rc (by simpa using hrc) (by simpa using hrh)
  have hsh' : ∀ x ∈ s.history_entries, ¬ x.transaction_hash = st.transactionHash :=
    fun x hx hc => hsh (hc ▸ List.mem_map_of_mem HistoryEntry.transaction_hash hx)
  have hrh2' : ∀ x ∈ s.history_entries, ¬ x.transaction_hash = rc.transactionHash :=
    fun x hx hc => hrh2 (hc ▸ List.mem_map_of_mem HistoryEntry.transaction_hash hx)
  have hrh' : ∀ x ∈ s.recall_events, ¬ x.transaction_hash = rc.transactionHash :=
    fun x hx hc => hrh (hc ▸ List.mem_map_of_mem RecallEvent.transaction_hash hx)
  have hst' : ∀ x ∈ s.lots, ¬ x.token_id = st.lotId :=
    fun x hx hc => hst (hc ▸ List.mem_map_of_mem Lot.token_id hx)
  refine ⟨by rw [e2]; simp, by rw [e2]; simp, by rw [e2]; simp, by rw [e2]; simp, ?_⟩
  unfold index_all_events index_lot_registered_events index_transfer_events
  simp only [List.foldl_nil]
  rw [e2]
  unfold commit
  simp only [lotIds, histHashes, recallHashes, hne, addHistory_ph, addHistory_pl,
    addHistory_pr, addHistory_ch, addHistory_cr, addHistory_visible, addRecall_ph,
    addRecall_pl, addRecall_pr, addRecall_ch, addRecall_cr, addRecall_visible,
    openSession_visible, openSession_pl, openSession_ph, openSession_pr,
    openSession_ch, openSession_cr]
  simp [lotIds, histHashes, recallHashes, hne]
  have hc1 : ¬ ((∀ x ∈ s.history_entries, ¬x.transaction_hash = st.transactionHash) →
      ∃ x ∈ s.history_entries, x.transaction_hash = rc.transactionHash) := by
    intro himp
    obtain ⟨x, hx, hc⟩ := himp hsh'
    exact hrh2' x hx hc
  have hc2 : ¬ ∃ x ∈ s.recall_events, x.transaction_hash = rc.transactionHash := by
    rintro ⟨x, hx, hc⟩
    exact hrh' x hx hc
  have hc3 : ∀ x ∈ s.lots, x.token_id = st.lotId →
      ∀ x ∈ s.lots, ¬x.token_id = rc.lotId :=
    fun x hx hc => absurd hc (hst' x hx)
  rw [if_neg hc1, if_neg hc2, if_pos hc3]

theorem C10_witness :
    (9 : Nat) ∉ lotIds ([] : List Lot) ∧
    ("0xs9" : String) ≠ "0xr9" ∧
    (index_lot_recalled_events [⟨9, "0xR", "0xr9", 13⟩] (fun b => b) 6
        (index_lot_status_updated_events [⟨9, 2, "Qm", "0xU", "0xs9", 12⟩] (fun b => b) 6
          (openSession ⟨[], [], []⟩))).visible_lots = [] ∧
    (index_lot_recalled_events [⟨9, "0xR", "0xr9", 13⟩] (fun b => b) 6
        (index_lot_status_updated_events [⟨9, 2, "Qm", "0xU", "0xs9", 12⟩] (fun b => b) 6
          (openSession ⟨[], [], []⟩))).pending_history
      = [⟨9, 12, "0xU", "Qm", "LotStatusUpdated", "0xs9", 12⟩,
         ⟨9, 13, "0xR", "RECALL_TRIGGERED", "LotRecalled", "0xr9", 13⟩] ∧
    index_all_events ⟨[], [], []⟩
        ⟨[], [], [⟨9, 2, "Qm", "0xU", "0xs9", 12⟩], [⟨9, "0xR", "0xr9", 13⟩]⟩
        (fun b => b) 6
      = .error DbError.fkViolation := by
  have h := C10_amended ⟨[], [], []⟩ ⟨9, 2, "Qm", "0xU", "0xs9", 12⟩ ⟨9, "0xR", "0xr9", 13⟩
      (fun b => b) 6 (by decide) (by decide) (by decide) (by decide) (by decide) (by decide)
  exact ⟨by decide, by decide, h.1, h.2.2.1, h.2.2.2.2⟩

end FoodSafe

namespace FoodSafe

theorem foldl_pres {σ : Type} (P : DbSession → Prop) {step : DbSession → σ → DbSession}
    (hstep : ∀ s e, P s → P (step s e)) :
    ∀ (evs : List σ) (s : DbSession), P s → P (evs.foldl step s)
  | [], _, h => h
  | e :: evs, s, h => foldl_pres P hstep evs (step s e) (hstep s e h)

/-- The session-level invariant: every lot row, visible or pending,
satisfies the recalled-iff-status-Recalled invariant. -/
def SessInv (sess : DbSession) : Prop :=
  (∀ l ∈ sess.visible_lots, lot_invariant l = true) ∧
  (∀ l ∈ sess.pending_lots, lot_invariant l = true)

theorem sessInv_updateVisibleLot {sess : DbSession} (tid : Nat) (f : Lot → Lot)
    (hf : ∀ l, lot_invariant l = true → lot_invariant (f l) = true)
    (h : SessInv sess) : SessInv (updateVisibleLot sess tid f) := by
  refine ⟨?_, by simpa [updateVisibleLot] using h.2⟩
  intro l hl
  unfold updateVisibleLot at hl
  simp only [List.mem_map] at hl
  obtain ⟨x, hx, rfl⟩ := hl
  by_cases c : (x.token_id == tid) = true
  · rw [if_pos c]
    exact hf x (h.1 x hx)
  · rw [if_neg c]
    exact h.1 x hx

theorem sessInv_addLot {sess : DbSession} {l : Lot}
    (hl : lot_invariant l = true) (h : SessInv sess) : SessInv (addLot sess l) := by
  refine ⟨by simpa using h.1, ?_⟩
  intro x hx
  simp only [addLot_pl, List.mem_append, List.mem_singleton] at hx
  rcases hx with hx | rfl
  · exact h.2 x hx
  · exact hl

theorem sessInv_addHistory {sess : DbSession} (e : HistoryEntry)
    (h : SessInv sess) : SessInv (addHistory sess e) := by
  exact ⟨by simpa using h.1, by simpa using h.2⟩

theorem sessInv_addRecall {sess : DbSession} (e : RecallEvent)
    (h : SessInv sess) : SessInv (addRecall sess e) := by
  exact ⟨by simpa using h.1, by simpa using h.2⟩

theorem registeredStep_inv (ts : Nat → Nat) (now : Nat)
    (sess : DbSession) (ev : LotRegisteredEvent)
    (h : SessInv sess) : SessInv (registeredStep ts now sess ev) := by
  cases hf : findLot sess ev.lotId with
  | some l => simpa only [registeredStep, hf] using h
  | none =>
    simp only [registeredStep, hf]
    exact sessInv_addHistory _ (sessInv_addLot rfl h)

theorem transferStep_inv (ts : Nat → Nat) (now : Nat)
    (sess : DbSession) (ev : TransferEvent)
    (h : SessInv sess) : SessInv (transferStep ts now sess ev) := by
  by_cases hm : (ev.from_address == zero_address) = true
  · simp only [transferStep]
    rw [if_pos hm]
    exact h
  · cases hf : findLot sess ev.tokenId with
    | some l =>
      simp only [transferStep, hf]
      rw [if_neg hm]
      have h1 : SessInv (updateVisibleLot sess ev.tokenId
          (fun l => { l with owner_address := ev.to_address, updated_at := now })) :=
        sessInv_updateVisibleLot _ _ (fun l hl => hl) h
      split
      · exact h1
      · exact sessInv_addHistory _ h1
    | none =>
      simp only [transferStep, hf]
      rw [if_neg hm]
      have h1 : SessInv (addLot sess
          { token_id := ev.tokenId, owner_address := ev.to_address, status := "InTransit",
            is_recalled := false, created_at := now, updated_at := now }) :=
        sessInv_addLot rfl h
      split
      · exact h1
      · exact sessInv_addHistory _ h1

theorem recalledStep_inv (ts : Nat → Nat) (now : Nat)
    (sess : DbSession) (ev : LotRecalledEvent)
    (h : SessInv sess) : SessInv (recalledStep ts now sess ev) := by
  cases hf : findLot sess ev.lotId with
  | some l =>
    simp only [recalledStep, hf]
    have h1 : SessInv (updateVisibleLot sess ev.lotId
        (fun l => { l with is_recalled := true, status := "Recalled", updated_at := now })) :=
      sessInv_updateVisibleLot _ _ (fun l _ => rfl) h
    split
    · exact h1
    · exact sessInv_addHistory _ (sessInv_addRecall _ h1)
  | none =>
    simp only [recalledStep, hf]
    split
    · exact h
    · exact sessInv_addHistory _ (sessInv_addRecall _ h)

/-- Claim C1, amended: the invariant `is_recalled == true` iff
`status == "Recalled"` is preserved by every batch containing no
LotStatusUpdated event (LotRegistered inserts Created/false, Transfer only
reassigns owner or defensively inserts InTransit/false, LotRecalled sets
both fields together); the LotStatusUpdated handler is the one that can
break it. -/
theorem C1_amended (s s' : Store) (b : EventBatch) (ts : Nat → Nat) (now : Nat)
    (hb : b.statusUpdates = []) (hinv : store_invariant s = true)
    (h : index_all_events s b ts now = .ok s') :
    store_invariant s' = true := by
  simp only [index_all_events, hb, index_lot_status_updated_events, List.foldl_nil] at h
  have h0 : SessInv (openSession s) := by
    constructor
    · intro l hl
      have := (List.all_eq_true.mp hinv) l hl
      simpa using this
    · intro l hl
      simp only [openSession_pl] at hl
      exact absurd hl (List.not_mem_nil l)
  have h1 : SessInv (index_lot_registered_events b.registered ts now (openSession s)) :=
    foldl_pres SessInv (registeredStep_inv ts now) b.registered _ h0
  have h2 : SessInv (index_transfer_events b.transfers ts now
      (index_lot_registered_events b.registered ts now (openSession s))) :=
    foldl_pres SessInv (transferStep_inv ts now) b.transfers _ h1
  have h3 : SessInv (index_lot_recalled_events b.recalls ts now
      (index_transfer_events b.transfers ts now
        (index_lot_registered_events b.registered ts now (openSession s)))) :=
    foldl_pres SessInv (recalledStep_inv ts now) b.recalls _ h2
  have hS := commit_ok_eq h
  rw [hS]
  unfold store_invariant
  rw [List.all_eq_true]
  intro l hl
  rcases List.mem_append.mp hl with hv | hp
  · exact h3.1 l hv
  · exact h3.2 l hp

theorem C1_witness :
    store_invariant
      ⟨[⟨2, "0xB", "Recalled", true, 0, 6⟩],
       [⟨2, 15, "0xB", "", "Transfer", "0xw1", 15⟩,
        ⟨2, 16, "0xR2", "RECALL_TRIGGERED", "LotRecalled", "0xw2", 16⟩],
       [⟨2, "0xR2", 16, "0xw2", 16⟩]⟩ = true :=
  C1_amended ⟨[⟨2, "0xA", "Created", false, 0, 0⟩], [], []⟩
    ⟨[⟨2, "0xB", "Recalled", true, 0, 6⟩],
     [⟨2, 15, "0xB", "", "Transfer", "0xw1", 15⟩,
      ⟨2, 16, "0xR2", "RECALL_TRIGGERED", "LotRecalled", "0xw2", 16⟩],
     [⟨2, "0xR2", 16, "0xw2", 16⟩]⟩
    ⟨[], [⟨"0xA", "0xB", 2, "0xw1", 15⟩], [], [⟨2, "0xR2", "0xw2", 16⟩]⟩
    (fun b => b) 6 rfl (by decide) (by decide)

end FoodSafe

namespace FoodSafe

theorem historyExists_of_mem {sess : DbSession} {h : String}
    (hm : h ∈ histHashes sess.committed_history) : historyExists sess h = true := by
  unfold historyExists
  rw [List.any_eq_true]
  obtain ⟨x, hx, he⟩ := List.mem_map.mp hm
  exact ⟨x, hx, by simp [he]⟩

theorem recallExists_of_mem {sess : DbSession} {h : String}
    (hm : h ∈ recallHashes sess.committed_recalls) : recallExists sess h = true := by
  unfold recallExists
  rw [List.any_eq_true]
  obtain ⟨x, hx, he⟩ := List.mem_map.mp hm
  exact ⟨x, hx, by simp [he]⟩

theorem registeredStep_found (ts : Nat → Nat) (now : Nat)
    (sess : DbSession) (ev : LotRegisteredEvent)
    (h : ev.lotId ∈ lotIds sess.visible_lots) :
    registeredStep ts now sess ev = sess := by
  obtain ⟨l, hf⟩ := findLot_isSome h
  simp only [registeredStep, hf]

theorem index_registered_found (ts : Nat → Nat) (now : Nat) :
    ∀ (evs : List LotRegisteredEvent) (sess : DbSession),
    (∀ ev ∈ evs, ev.lotId ∈ lotIds sess.visible_lots) →
    index_lot_registered_events evs ts now sess = sess := by
  intro evs
  induction evs with
  | nil => intro sess _; rfl
  | cons a l ih =>
    intro sess h
    show (a :: l).foldl (registeredStep ts now) sess = sess
    rw [List.foldl_cons, registeredStep_found ts now sess a (h a (List.mem_cons_self a l))]
    exact ih sess (fun ev hev => h ev (List.mem_cons_of_mem a hev))

theorem transferStep_replay (ts : Nat → Nat) (now : Nat)
    (sess : DbSession) (ev : TransferEvent)
    (hlot : ev.from_address ≠ zero_address → ev.tokenId ∈ lotIds sess.visible_lots)
    (hhash : ev.from_address ≠ zero_address →
      ev.transactionHash ∈ histHashes sess.committed_history) :
    SameShape sess (transferStep ts now sess ev) := by
  by_cases hm : (ev.from_address == zero_address) = true
  · simp only [transferStep]
    rw [if_pos hm]
    exact SameShape.shapeRfl sess
  · have hm' : ev.from_address ≠ zero_address := by simpa using hm
    obtain ⟨l, hf⟩ := findLot_isSome (hlot hm')
    simp only [transferStep, hf]
    rw [if_neg hm]
    have hc : historyExists (updateVisibleLot sess ev.tokenId
        (fun l => { l with owner_address := ev.to_address, updated_at := now }))
        ev.transactionHash = true := by
      simpa using historyExists_of_mem (hhash hm')
    rw [if_pos hc]
    exact ⟨rfl, rfl, rfl, lotIds_update_owner sess ev.tokenId ev.to_address now, rfl, rfl⟩

theorem statusStep_replay (ts : Nat → Nat) (now : Nat)
    (sess : DbSession) (ev : LotStatusUpdatedEvent)
    (hhash : ev.transactionHash ∈ histHashes sess.committed_history) :
    SameShape sess (statusStep ts now sess ev) := by
  cases hf : findLot sess ev.lotId with
  | some l =>
    simp only [statusStep, hf]
    have hc : historyExists (updateVisibleLot sess ev.lotId
        (fun l => { l with status := status_map_get ev.newStatus,
                           owner_address := ev.updater, updated_at := now }))
        ev.transactionHash = true := by
      simpa using historyExists_of_mem hhash
    rw [if_pos hc]
    exact ⟨rfl, rfl, rfl,
      lotIds_update_status sess ev.lotId (status_map_get ev.newStatus) ev.updater now,
      rfl, rfl⟩
  | none =>
    simp only [statusStep, hf]
    rw [if_pos (historyExists_of_mem hhash)]
    exact SameShape.shapeRfl sess

theorem recalledStep_replay (ts : Nat → Nat) (now : Nat)
    (sess : DbSession) (ev : LotRecalledEvent)
    (hhash : ev.transactionHash ∈ recallHashes sess.committed_recalls) :
    SameShape sess (recalledStep ts now sess ev) := by
  cases hf : findLot sess ev.lotId with
  | some l =>
    simp only [recalledStep, hf]
    have hc : recallExists (updateVisibleLot sess ev.lotId
        (fun l => { l with is_recalled := true, status := "Recalled", updated_at := now }))
        ev.transactionHash = true := by
      simpa using recallExists_of_mem hhash
    rw [if_pos hc]
    exact ⟨rfl, rfl, rfl, lotIds_update_recalled sess ev.lotId now, rfl, rfl⟩
  | none =>
    simp only [recalledStep, hf]
    rw [if_pos (recallExists_of_mem hhash)]
    exact SameShape.shapeRfl sess

theorem foldl_replay {σ : Type} {step : DbSession → σ → DbSession}
    (H : σ → DbSession → Prop)
    (hstep : ∀ s e, H e s → SameShape s (step s e))
    (hmono : ∀ (e : σ) (s t : DbSession), SameShape s t → H e s → H e t) :
    ∀ (evs : List σ) (s : DbSession), (∀ e ∈ evs, H e s) →
      SameShape s (evs.foldl step s) := by
  intro evs
  induction evs with
  | nil => intro s _; exact SameShape.shapeRfl s
  | cons a l ih =>
    intro s h
    rw [List.foldl_cons]
    have sh1 := hstep s a (h a (List.mem_cons_self a l))
    have h' : ∀ e ∈ l, H e (step s a) :=
      fun e he => hmono e _ _ sh1 (h e (List.mem_cons_of_mem a he))
    exact sh1.shapeTrans (ih (step s a) h')

/-- Facts a successfully committed batch leaves behind: every processed
registration token has a Lot row in the committed store (inserted or
pre-existing), every non-mint transfer token likewise and its hash is in
the history table, every status-update hash is in the history table and
every recall hash is in the recall table. -/
theorem batch_facts {S0 S1 : Store} {b : EventBatch} {ts : Nat → Nat} {now : Nat}
    (h : index_all_events S0 b ts now = .ok S1) :
    (∀ ev ∈ b.registered, ev.lotId ∈ lotIds S1.lots) ∧
    (∀ ev ∈ b.transfers, ev.from_address ≠ zero_address →
        ev.tokenId ∈ lotIds S1.lots ∧
        ev.transactionHash ∈ histHashes S1.history_entries) ∧
    (∀ ev ∈ b.statusUpdates, ev.transactionHash ∈ histHashes S1.history_entries) ∧
    (∀ ev ∈ b.recalls, ev.transactionHash ∈ recallHashes S1.recall_events) := by
  simp only [index_all_events] at h
  set sB := index_lot_registered_events b.registered ts now (openSession S0) with hB
  set sC := index_transfer_events b.transfers ts now sB with hC
  set sD := index_lot_status_updated_events b.statusUpdates ts now sC with hD
  set sE := index_lot_recalled_events b.recalls ts now sD with hE
  have hS1 := commit_ok_eq h
  have hlots : ∀ a : Nat,
      (a ∈ lotIds sE.visible_lots ∨ a ∈ lotIds sE.pending_lots) → a ∈ lotIds S1.lots := by
    intro a ha
    rw [hS1]
    show a ∈ lotIds (sE.visible_lots ++ sE.pending_lots)
    rw [lotIds_append]
    rcases ha with h1 | h1
    · exact List.mem_append_left _ h1
    · exact List.mem_append_right _ h1
  have hhist : ∀ x : String,
      (x ∈ histHashes sE.committed_history ∨ x ∈ histHashes sE.pending_history) →
      x ∈ histHashes S1.history_entries := by
    intro x hx
    rw [hS1]
    show x ∈ histHashes (sE.committed_history ++ sE.pending_history)
    rw [histHashes_append]
    rcases hx with h1 | h1
    · exact List.mem_append_left _ h1
    · exact List.mem_append_right _ h1
  have hrec : ∀ x : String,
      (x ∈ recallHashes sE.committed_recalls ∨ x ∈ recallHashes sE.pending_recalls) →
      x ∈ recallHashes S1.recall_events := by
    intro x hx
    rw [hS1]
    show x ∈ recallHashes (sE.committed_recalls ++ sE.pending_recalls)
    rw [recallHashes_append]
    rcases hx with h1 | h1
    · exact List.mem_append_left _ h1
    · exact List.mem_append_right _ h1
  have eBC : SessExtends sB sC := by
    rw [hC]
    exact foldl_extends (transferStep_extends ts now) b.transfers sB
  have eCD : SessExtends sC sD := by
    rw [hD]
    exact foldl_extends (statusStep_extends ts now) b.statusUpdates sC
  have eDE : SessExtends sD sE := by
    rw [hE]
    exact foldl_extends (recalledStep_extends ts now) b.recalls sD
  refine ⟨?_, ?_, ?_, ?_⟩
  · intro ev he
    have hq : ev.lotId ∈ lotIds sB.visible_lots ∨ ev.lotId ∈ lotIds sB.pending_lots := by
      rw [hB]
      exact foldl_presence
        (fun ev sess => ev.lotId ∈ lotIds sess.visible_lots ∨
          ev.lotId ∈ lotIds sess.pending_lots)
        (registeredStep_extends ts now) (registeredStep_presence ts now)
        (fun ev _ _ hext hq => mem_combined_of_extends hext hq)
        b.registered (openSession S0) ev he
    exact hlots _ (mem_combined_of_extends (eBC.extTrans (eCD.extTrans eDE)) hq)
  · intro ev he hm
    have hq : (ev.tokenId ∈ lotIds sC.visible_lots ∨ ev.tokenId ∈ lotIds sC.pending_lots) ∧
        (ev.transactionHash ∈ histHashes sC.committed_history ∨
         ev.transactionHash ∈ histHashes sC.pending_history) := by
      rw [hC]
      exact foldl_presence
        (fun ev sess => ev.from_address ≠ zero_address →
          (ev.tokenId ∈ lotIds sess.visible_lots ∨ ev.tokenId ∈ lotIds sess.pending_lots) ∧
          (ev.transactionHash ∈ histHashes sess.committed_history ∨
           ev.transactionHash ∈ histHashes sess.pending_history))
        (transferStep_extends ts now)
        (fun s e hm2 => transferStep_presence ts now s e hm2)
        (by
          intro ev2 s t hext hq hm2
          exact ⟨mem_combined_of_extends hext (hq hm2).1,
                 mem_hist_of_extends hext (hq hm2).2⟩)
        b.transfers sB ev he hm
    exact ⟨hlots _ (mem_combined_of_extends (eCD.extTrans eDE) hq.1),
           hhist _ (mem_hist_of_extends (eCD.extTrans eDE) hq.2)⟩
  · intro ev he
    have hq : ev.transactionHash ∈ histHashes sD.committed_history ∨
        ev.transactionHash ∈ histHashes sD.pending_history := by
      rw [hD]
      exact foldl_presence
        (fun ev sess => ev.transactionHash ∈ histHashes sess.committed_history ∨
          ev.transactionHash ∈ histHashes sess.pending_history)
        (statusStep_extends ts now) (statusStep_presence ts now)
        (fun ev _ _ hext hq => mem_hist_of_extends hext hq)
        b.statusUpdates sC ev he
    exact hhist _ (mem_hist_of_extends eDE hq)
  · intro ev he
    have hq : ev.transactionHash ∈ recallHashes sE.committed_recalls ∨
        ev.transactionHash ∈ recallHashes sE.pending_recalls := by
      rw [hE]
      exact foldl_presence
        (fun ev sess => ev.transactionHash ∈ recallHashes sess.committed_recalls ∨
          ev.transactionHash ∈ recallHashes sess.pending_recalls)
        (recalledStep_extends ts now) (recalledStep_presence ts now)
        (fun ev _ _ hext hq => mem_recall_of_extends hext hq)
        b.recalls sD ev he
    exact hrec _ hq

end FoodSafe

namespace FoodSafe

/-- Claim C2, amended: replaying a committed range adds no row anywhere
(no second Lot, no duplicate HistoryEntry or RecallEvent) and leaves the
HistoryEntry and RecallEvent tables exactly as they were; Lot rows keep
their token ids but their fields may change (updated_at is refreshed, and
status/owner updates the first pass skipped, because the lot row was still
pending and invisible to the handler query, are applied on replay). -/
theorem C2_amended (S0 S1 : Store) (b : EventBatch) (ts : Nat → Nat) (now1 now2 : Nat)
    (h : index_all_events S0 b ts now1 = .ok S1) :
    ∃ S2, index_all_events S1 b ts now2 = .ok S2 ∧
      S2.history_entries = S1.history_entries ∧
      S2.recall_events = S1.recall_events ∧
      S2.lots.map Lot.token_id = S1.lots.map Lot.token_id := by
  obtain ⟨f1, f2, f3, f4⟩ := batch_facts h
  have hreg : index_lot_registered_events b.registered ts now2 (openSession S1)
      = openSession S1 :=
    index_registered_found ts now2 b.registered (openSession S1) (fun ev he => f1 ev he)
  have shT : SameShape (openSession S1)
      (index_transfer_events b.transfers ts now2 (openSession S1)) := by
    refine foldl_replay
      (fun ev sess =>
        (ev.from_address ≠ zero_address → ev.tokenId ∈ lotIds sess.visible_lots) ∧
        (ev.from_address ≠ zero_address →
          ev.transactionHash ∈ histHashes sess.committed_history))
      ?_ ?_ b.transfers (openSession S1) ?_
    · intro s e hH
      exact transferStep_replay ts now2 s e hH.1 hH.2
    · intro e s t sh hH
      refine ⟨fun hm => ?_, fun hm => ?_⟩
      · rw [sh.vid]
        exact hH.1 hm
      · rw [sh.ch]
        exact hH.2 hm
    · intro ev he
      exact ⟨fun hm => (f2 ev he hm).1, fun hm => (f2 ev he hm).2⟩
  have shS : SameShape (index_transfer_events b.transfers ts now2 (openSession S1))
      (index_lot_status_updated_events b.statusUpdates ts now2
        (index_transfer_events b.transfers ts now2 (openSession S1))) := by
    refine foldl_replay
      (fun ev sess => ev.transactionHash ∈ histHashes sess.committed_history)
      ?_ ?_ b.statusUpdates _ ?_
    · intro s e hH
      exact statusStep_replay ts now2 s e hH
    · intro e s t sh hH
      rw [sh.ch]
      exact hH
    · intro ev he
      rw [shT.ch]
      exact f3 ev he
  have shR : SameShape (index_lot_status_updated_events b.statusUpdates ts now2
        (index_transfer_events b.transfers ts now2 (openSession S1)))
      (index_lot_recalled_events b.recalls ts now2
        (index_lot_status_updated_events b.statusUpdates ts now2
          (index_transfer_events b.transfers ts now2 (openSession S1)))) := by
    refine foldl_replay
      (fun ev sess => ev.transactionHash ∈ recallHashes sess.committed_recalls)
      ?_ ?_ b.recalls _ ?_
    · intro s e hH
      exact recalledStep_replay ts now2 s e hH
    · intro e s t sh hH
      rw [sh.cr]
      exact hH
    · intro ev he
      rw [shS.cr, shT.cr]
      exact f4 ev he
  have sh : SameShape (openSession S1)
      (index_lot_recalled_events b.recalls ts now2
        (index_lot_status_updated_events b.statusUpdates ts now2
          (index_transfer_events b.transfers ts now2 (openSession S1)))) :=
    shT.shapeTrans (shS.shapeTrans shR)
  have hc : commit (index_lot_recalled_events b.recalls ts now2
        (index_lot_status_updated_events b.statusUpdates ts now2
          (index_transfer_events b.transfers ts now2 (openSession S1))))
      = .ok ⟨(index_lot_recalled_events b.recalls ts now2
          (index_lot_status_updated_events b.statusUpdates ts now2
            (index_transfer_events b.transfers ts now2 (openSession S1)))).visible_lots,
         (index_lot_recalled_events b.recalls ts now2
          (index_lot_status_updated_events b.statusUpdates ts now2
            (index_transfer_events b.transfers ts now2 (openSession S1)))).committed_history,
         (index_lot_recalled_events b.recalls ts now2
          (index_lot_status_updated_events b.statusUpdates ts now2
            (index_transfer_events b.transfers ts now2 (openSession S1)))).committed_recalls⟩ :=
    commit_pending_nil (by rw [sh.pl]; rfl) (by rw [sh.ph]; rfl) (by rw [sh.pr]; rfl)
  refine ⟨⟨(index_lot_recalled_events b.recalls ts now2
      (index_lot_status_updated_events b.statusUpdates ts now2
        (index_transfer_events b.transfers ts now2 (openSession S1)))).visible_lots,
      S1.history_entries, S1.recall_events⟩, ?_, rfl, rfl, ?_⟩
  · simp only [index_all_events]
    rw [hreg, hc, sh.ch, sh.cr]
    rfl
  · show lotIds (index_lot_recalled_events b.recalls ts now2
        (index_lot_status_updated_events b.statusUpdates ts now2
          (index_transfer_events b.transfers ts now2 (openSession S1)))).visible_lots
      = lotIds S1.lots
    rw [sh.vid]
    rfl

/-- Claim C2, counterexample. A batch carrying a LotRegistered and a
LotStatusUpdated for the same lot commits with status "Created" (the
status handler's query missed the pending lot row); replaying the
identical batch with the identical wall-clock reading yields a store whose
lot row now reads status "OnShelf" and owner "0xQ": a field of an existing
row changed on the second application. -/
theorem C2_counterexample :
    index_all_events ⟨[], [], []⟩
        ⟨[⟨1, "Prod", "0xP", "0xr1", 20⟩], [], [⟨1, 2, "Qm2", "0xQ", "0xs1", 21⟩], []⟩
        (fun x => x) 3
      = .ok ⟨[⟨1, "0xP", "Created", false, 3, 3⟩],
             [⟨1, 20, "0xP", "", "LotRegistered", "0xr1", 20⟩,
              ⟨1, 21, "0xQ", "Qm2", "LotStatusUpdated", "0xs1", 21⟩], []⟩ ∧
    index_all_events ⟨[⟨1, "0xP", "Created", false, 3, 3⟩],
             [⟨1, 20, "0xP", "", "LotRegistered", "0xr1", 20⟩,
              ⟨1, 21, "0xQ", "Qm2", "LotStatusUpdated", "0xs1", 21⟩], []⟩
        ⟨[⟨1, "Prod", "0xP", "0xr1", 20⟩], [], [⟨1, 2, "Qm2", "0xQ", "0xs1", 21⟩], []⟩
        (fun x => x) 3
      = .ok ⟨[⟨1, "0xQ", "OnShelf", false, 3, 3⟩],
             [⟨1, 20, "0xP", "", "LotRegistered", "0xr1", 20⟩,
              ⟨1, 21, "0xQ", "Qm2", "LotStatusUpdated", "0xs1", 21⟩], []⟩ ∧
    (⟨[⟨1, "0xQ", "OnShelf", false, 3, 3⟩],
      [⟨1, 20, "0xP", "", "LotRegistered", "0xr1", 20⟩,
       ⟨1, 21, "0xQ", "Qm2", "LotStatusUpdated", "0xs1", 21⟩], []⟩ : Store)
      ≠ ⟨[⟨1, "0xP", "Created", false, 3, 3⟩],
         [⟨1, 20, "0xP", "", "LotRegistered", "0xr1", 20⟩,
          ⟨1, 21, "0xQ", "Qm2", "LotStatusUpdated", "0xs1", 21⟩], []⟩ := by
  refine ⟨by decide, by decide, by decide⟩

theorem C2_witness :
    ∃ S2, index_all_events ⟨[⟨1, "0xP", "Created", false, 3, 3⟩],
             [⟨1, 20, "0xP", "", "LotRegistered", "0xr1", 20⟩,
              ⟨1, 21, "0xQ", "Qm2", "LotStatusUpdated", "0xs1", 21⟩], []⟩
        ⟨[⟨1, "Prod", "0xP", "0xr1", 20⟩], [], [⟨1, 2, "Qm2", "0xQ", "0xs1", 21⟩], []⟩
        (fun x => x) 4 = .ok S2 ∧
      S2.history_entries = [⟨1, 20, "0xP", "", "LotRegistered", "0xr1", 20⟩,
                            ⟨1, 21, "0xQ", "Qm2", "LotStatusUpdated", "0xs1", 21⟩] ∧
      S2.recall_events = [] ∧
      S2.lots.map Lot.token_id = [1] :=
  C2_amended ⟨[], [], []⟩
    ⟨[⟨1, "0xP", "Created", false, 3, 3⟩],
     [⟨1, 20, "0xP", "", "LotRegistered", "0xr1", 20⟩,
      ⟨1, 21, "0xQ", "Qm2", "LotStatusUpdated", "0xs1", 21⟩], []⟩
    ⟨[⟨1, "Prod", "0xP", "0xr1", 20⟩], [], [⟨1, 2, "Qm2", "0xQ", "0xs1", 21⟩], []⟩
    (fun x => x) 3 4 (by decide)

end FoodSafe
